import Mathlib

/-!
Verification of the signaling server of the rust-webrtc-p2p-example
repository against its natural-language specification.

The development has two parts:

* `SigModel`: a sequential shallow embedding of the server's state and of
  the per-message handlers of `src/server/src/socket.rs`,
  `src/server/src/channel.rs`, `src/server/src/server_data.rs` and
  `src/server/src/server.rs`.  `Arc`/`Weak` ownership is modelled with an
  allocation counter: each `Channel` / `ChannelReceiver` gets a fresh
  allocation id, a weak reference is the id, and upgrading succeeds iff
  some live socket still strongly owns an object with that id
  (channels live in `Sock.channel_senders`, receivers in
  `Sock.channel_receivers`, exactly as the strong references in the
  source).  Messages written to a connection are collected, in order, in
  a per-socket outbox.

* `SigWire`: an embedding of the wire codec for the message unions of
  `src/signaling-protocol/src/lib.rs`: little-endian, `u64` length
  prefixes for strings/vectors, one-byte `Option` tags, `u32` enum tags
  in declaration order.
-/

namespace SigModel

/-- `IceCandidate` of `src/signaling-protocol/src/lib.rs` (String payloads,
`sdp_m_line_index : u16` as a `Nat`). -/
structure MIceCandidate where
  candidate : String
  sdp_mid : Option String
  sdp_m_line_index : Option Nat
deriving DecidableEq, Repr

/-- `NetworkMode` of `src/signaling-protocol/src/lib.rs`. -/
inductive MNetworkMode
  | peerToPeer
  | clientServer
deriving DecidableEq, Repr

/-- `ClientSenderMessage` of `src/signaling-protocol/src/lib.rs`. -/
inductive MClientSenderMsg
  | openChannel (channel_id : String) (network_mode : MNetworkMode)
  | closeChannel
  | sendOffer (sdp : String)
  | iceCandidate (c : MIceCandidate)
  | allIceCandidatesSent
  | sendBinaryData (data : List Nat)
deriving DecidableEq, Repr

/-- `ClientReceiverMessage` of `src/signaling-protocol/src/lib.rs`. -/
inductive MClientReceiverMsg
  | joinChannel (channel_id : String)
  | exitChannel
  | sendAnswer (sdp : String)
  | iceCandidate (c : MIceCandidate)
  | allIceCandidatesSent
deriving DecidableEq, Repr

/-- `ClientMessage` of `src/signaling-protocol/src/lib.rs`. -/
inductive MClientMsg
  | senderMessage (sender_id : Nat) (message : MClientSenderMsg)
  | receiverMessage (receiver_id : Nat) (message : MClientReceiverMsg)
deriving DecidableEq, Repr

/-- `ServerSenderErrorMessage` of `src/signaling-protocol/src/lib.rs`. -/
inductive MServerSenderError
  | sessionSenderIdIsAlreadyUsed
  | sessionSenderIdIsNotExist
  | channelIdIsAlreadyUsed (channel_id : String)
deriving DecidableEq, Repr

/-- `ServerReceiverErrorMessage` of `src/signaling-protocol/src/lib.rs`. -/
inductive MServerReceiverError
  | sessionReceiverIdIsAlreadyUsed
  | sessionReceiverIdIsNotExist
  | channelIsNotExist (channel_id : String)
  | channelIsAlreadyOccupied (channel_id : String)
deriving DecidableEq, Repr

/-- `ServerSenderMessage` of `src/signaling-protocol/src/lib.rs`. -/
inductive MServerSenderMsg
  | openChannelSuccess
  | channelAnswer (sdp : String)
  | iceCandidate (c : MIceCandidate)
  | allIceCandidatesSent
  | error (e : MServerSenderError)
deriving DecidableEq, Repr

/-- `ServerReceiverMessage` of `src/signaling-protocol/src/lib.rs`. -/
inductive MServerReceiverMsg
  | joinChannelSuccess
  | channelOffer (sdp : String)
  | iceCandidate (c : MIceCandidate)
  | allIceCandidatesSent
  | binaryData (data : List Nat)
  | error (e : MServerReceiverError)
deriving DecidableEq, Repr

/-- `ServerMessage` of `src/signaling-protocol/src/lib.rs`. -/
inductive MServerMsg
  | openChannelIdsChanged (ids : List String)
  | senderMessage (sender_id : Nat) (message : MServerSenderMsg)
  | receiverMessage (receiver_id : Nat) (message : MServerReceiverMsg)
deriving DecidableEq, Repr

/-- `ChannelIceCandidates` of `src/server/src/channel.rs`. -/
structure MIceAcc where
  candidates : List MIceCandidate
  all_sent : Bool
deriving DecidableEq, Repr

/-- `ChannelKind` of `src/server/src/channel.rs`; the receiver slot holds
the weak reference as the allocation id of a `ChannelReceiver`. -/
inductive MChannelKind
  | peerToPeer (receiver : Option Nat)
  | clientServer (receivers : List Nat)
deriving DecidableEq, Repr

/-- `Channel` together with its embedded `ChannelSender`
(`src/server/src/channel.rs`).  `alloc` is the identity of the `Arc`. -/
structure MChannel where
  alloc : Nat
  channel_id : String
  session_sender_id : Nat
  session_description : Option String
  ice_candidates : MIceAcc
  kind : MChannelKind
deriving DecidableEq, Repr

/-- `ChannelReceiver` of `src/server/src/channel.rs`; `channel` is the weak
back reference (allocation id of the parent `Channel`). -/
structure MReceiver where
  alloc : Nat
  channel : Nat
  session_receiver_id : Nat
  session_description : Option String
  ice_candidates : MIceAcc
deriving DecidableEq, Repr

/-- The per-socket state of `Socket` (`src/server/src/socket.rs`):
the strong maps `channel_senders` and `channel_receivers`. -/
structure MSock where
  sid : Nat
  channel_senders : List (Nat × MChannel)
  channel_receivers : List (Nat × MReceiver)
deriving DecidableEq, Repr

/-- `ServerData` (`src/server/src/server_data.rs`) plus the set of live
sockets.  `channels` is the weak registry (channel id to allocation id),
`senders` the hub's socket-sender map (a weak entry is upgradeable iff the
socket is still in `sockets`), `nextAlloc` the allocation counter. -/
structure MCore where
  channels : List (String × Nat)
  senders : List Nat
  sockets : List MSock
  nextAlloc : Nat
deriving DecidableEq, Repr

/-- Full server state: core state plus the per-connection write history. -/
structure MState where
  core : MCore
  outs : List (Nat × List MServerMsg)
deriving DecidableEq, Repr

/-- Association-list lookup (first match), used for the `HashMap`s of the
source. -/
def alookup {κ α : Type} [DecidableEq κ] : List (κ × α) → κ → Option α
  | [], _ => none
  | p :: t, k => if p.1 = k then some p.2 else alookup t k

/-- Association-list removal, used for `HashMap::remove`. -/
def aremove {κ α : Type} [DecidableEq κ] : List (κ × α) → κ → List (κ × α)
  | [], _ => []
  | p :: t, k => if p.1 = k then aremove t k else p :: aremove t k

/-- In-place update of the value stored under a key. -/
def aupdate {κ α : Type} [DecidableEq κ] (l : List (κ × α)) (k : κ) (f : α → α) :
    List (κ × α) :=
  l.map (fun p => if p.1 = k then (p.1, f p.2) else p)

/-- Find the live socket with the given socket id. -/
def socksFind : List MSock → Nat → Option MSock
  | [], _ => none
  | sk :: t, sid => if sk.sid = sid then some sk else socksFind t sid

/-- Find, in one socket's sender map, the channel with a given allocation
id (a successful `Weak<Channel>::upgrade`). -/
def chanInSends : List (Nat × MChannel) → Nat → Option (Nat × MChannel)
  | [], _ => none
  | p :: t, a => if p.2.alloc = a then some p else chanInSends t a

/-- Upgrade a weak channel reference: the channel is alive iff some live
socket strongly owns it.  Returns the owner socket id, the owning session
sender id and the channel. -/
def findChannelByAlloc : List MSock → Nat → Option (Nat × Nat × MChannel)
  | [], _ => none
  | sk :: t, a =>
    match chanInSends sk.channel_senders a with
    | some p => some (sk.sid, p.1, p.2)
    | none => findChannelByAlloc t a

/-- Find, in one socket's receiver map, the receiver with a given
allocation id. -/
def recvInRecvs : List (Nat × MReceiver) → Nat → Option MReceiver
  | [], _ => none
  | p :: t, a => if p.2.alloc = a then some p.2 else recvInRecvs t a

/-- Upgrade a weak `ChannelReceiver` reference; returns the socket that
strongly owns the receiver together with the receiver. -/
def findReceiverByAlloc : List MSock → Nat → Option (Nat × MReceiver)
  | [], _ => none
  | sk :: t, a =>
    match recvInRecvs sk.channel_receivers a with
    | some r => some (sk.sid, r)
    | none => findReceiverByAlloc t a

/-- Whether the weak receiver reference `a` can still be upgraded. -/
def receiverAlive (socks : List MSock) (a : Nat) : Bool :=
  (findReceiverByAlloc socks a).isSome

/-- The occupancy test of `Socket::join_channel`
(`receiver.as_ref().and_then(|receiver| receiver.upgrade())`). -/
def slotOccupied (socks : List MSock) : Option Nat → Bool
  | some a => receiverAlive socks a
  | none => false

/-- `ServerData::channels().get(id).and_then(upgrade)`:
registry lookup followed by a weak upgrade. -/
def registryUpgrade (c : MCore) (cid : String) : Option (Nat × Nat × MChannel) :=
  match alookup c.channels cid with
  | none => none
  | some a => findChannelByAlloc c.sockets a

/-- The channel strongly owned by socket `sid` under session sender id
`senderId` (`self.channel_senders.get(&sender_id)`). -/
def ownedChannel (c : MCore) (sid senderId : Nat) : Option MChannel :=
  match socksFind c.sockets sid with
  | none => none
  | some sk => alookup sk.channel_senders senderId

/-- The receiver strongly owned by socket `sid` under session receiver id
`rid` (`self.channel_receivers.get(&receiver_id)`). -/
def ownedReceiver (c : MCore) (sid rid : Nat) : Option MReceiver :=
  match socksFind c.sockets sid with
  | none => none
  | some sk => alookup sk.channel_receivers rid

/-- Map a function over the socket with the given id. -/
def updateSocks (socks : List MSock) (sid : Nat) (f : MSock → MSock) : List MSock :=
  socks.map (fun s => if s.sid = sid then f s else s)

/-- Mutate the channel with allocation id `a`, wherever it is owned
(mutation through an upgraded `Arc<Channel>`). -/
def updateChannelByAlloc (socks : List MSock) (a : Nat) (f : MChannel → MChannel) :
    List MSock :=
  socks.map (fun sk =>
    { sk with channel_senders := (sk.channel_senders.map
        (fun p => if p.2.alloc = a then (p.1, f p.2) else p)) })

/-- Mutate the channel owned by socket `sid` under `senderId` (mutation
through the strong reference of `self.channel_senders`). -/
def updateOwnChannel (c : MCore) (sid senderId : Nat) (f : MChannel → MChannel) : MCore :=
  { c with sockets := (updateSocks c.sockets sid
      (fun s => { s with channel_senders := aupdate s.channel_senders senderId f })) }

/-- Mutate the receiver owned by socket `sid` under `rid`. -/
def updateOwnReceiver (c : MCore) (sid rid : Nat) (f : MReceiver → MReceiver) : MCore :=
  { c with sockets := (updateSocks c.sockets sid
      (fun s => { s with channel_receivers := aupdate s.channel_receivers rid f })) }

/-- `ServerData::update_open_channel_ids`, first half: the advertised
snapshot.  A registered channel is included iff its weak reference
upgrades and, for a peer-to-peer channel, the receiver slot `is_none()`
(`src/server/src/server_data.rs`, lines 41-56).  A client-server channel
is always included. -/
def openChannelIds (c : MCore) : List String :=
  c.channels.filterMap (fun p =>
    match findChannelByAlloc c.sockets p.2 with
    | none => none
    | some q =>
      match q.2.2.kind with
      | .peerToPeer r => if r.isNone then some p.1 else none
      | .clientServer _ => some p.1)

/-- Socket ids in the hub's sender map whose weak `SocketSender` still
upgrades. -/
def liveSids (c : MCore) : List Nat :=
  c.senders.filter (fun sid => (socksFind c.sockets sid).isSome)

/-- `ServerData::update_open_channel_ids`, second half: one
`OpenChannelIdsChanged` frame per upgradeable entry of the sender map
(`src/server/src/server_data.rs`, lines 59-66). -/
def broadcastEmits (c : MCore) : List (Nat × MServerMsg) :=
  (liveSids c).map (fun sid => (sid, MServerMsg.openChannelIdsChanged (openChannelIds c)))

/-- `ChannelReceiver::send_offer_and_ice_candidates`
(`src/server/src/channel.rs`, lines 121-152): the stored offer if any,
then every accumulated candidate in order, then `AllIceCandidatesSent`
iff the flag is set, each wrapped for session receiver `rid`. -/
def replayMsgs (rid : Nat) (sd : Option String) (acc : MIceAcc) : List MServerMsg :=
  (match sd with
   | some o => [MServerMsg.receiverMessage rid (.channelOffer o)]
   | none => []) ++
  acc.candidates.map (fun cnd => MServerMsg.receiverMessage rid (.iceCandidate cnd)) ++
  (if acc.all_sent then [MServerMsg.receiverMessage rid .allIceCandidatesSent] else [])

/-- `Socket::open_channel` (`src/server/src/socket.rs`, lines 162-227).
Returns the new core state and the frames written, with destination
socket ids. -/
def hOpenChannel (c : MCore) (sid senderId : Nat) (cid : String) (mode : MNetworkMode) :
    MCore × List (Nat × MServerMsg) :=
  match socksFind c.sockets sid with
  | none => (c, [])
  | some sk =>
    match alookup sk.channel_senders senderId with
    | some _ =>
      (c, [(sid, .senderMessage senderId (.error .sessionSenderIdIsAlreadyUsed))])
    | none =>
      match alookup c.channels cid with
      | some _ =>
        (c, [(sid, .senderMessage senderId (.error (.channelIdIsAlreadyUsed cid)))])
      | none =>
        match mode with
        | .clientServer => (c, [])
        | .peerToPeer =>
          let ch : MChannel :=
            { alloc := c.nextAlloc, channel_id := cid, session_sender_id := senderId,
              session_description := none, ice_candidates := ⟨[], false⟩,
              kind := .peerToPeer none }
          let c' : MCore :=
            { c with
              channels := c.channels ++ [(cid, c.nextAlloc)],
              sockets :=
                updateSocks c.sockets sid
                  (fun s => { s with channel_senders := s.channel_senders ++ [(senderId, ch)] }),
              nextAlloc := c.nextAlloc + 1 }
          (c', broadcastEmits c')

/-- `Socket::join_channel` (`src/server/src/socket.rs`, lines 229-319). -/
def hJoinChannel (c : MCore) (sid rid : Nat) (cid : String) :
    MCore × List (Nat × MServerMsg) :=
  match socksFind c.sockets sid with
  | none => (c, [])
  | some sk =>
    match alookup sk.channel_receivers rid with
    | some _ =>
      (c, [(sid, .receiverMessage rid (.error .sessionReceiverIdIsAlreadyUsed))])
    | none =>
      match registryUpgrade c cid with
      | none =>
        (c, [(sid, .receiverMessage rid (.error (.channelIsNotExist cid)))])
      | some q =>
        match q.2.2.kind with
        | .clientServer _ => (c, [])
        | .peerToPeer slot =>
          if slotOccupied c.sockets slot then
            (c, [(sid, .receiverMessage rid (.error (.channelIsAlreadyOccupied cid)))])
          else
            let ch := q.2.2
            let robj : MReceiver :=
              { alloc := c.nextAlloc, channel := ch.alloc, session_receiver_id := rid,
                session_description := none, ice_candidates := ⟨[], false⟩ }
            let socks1 :=
              updateChannelByAlloc c.sockets ch.alloc
                (fun chX => { chX with kind := .peerToPeer (some c.nextAlloc) })
            let socks2 :=
              updateSocks socks1 sid
                (fun s => { s with channel_receivers := s.channel_receivers ++ [(rid, robj)] })
            let c' : MCore := { c with sockets := socks2, nextAlloc := c.nextAlloc + 1 }
            (c',
              (replayMsgs rid ch.session_description ch.ice_candidates).map (fun m => (sid, m))
                ++ broadcastEmits c')

/-- `Socket::close_channel` (`src/server/src/socket.rs`, lines 354-367).
The strong channel reference is dropped and a broadcast follows; the
registry entry is not touched. -/
def hCloseChannel (c : MCore) (sid senderId : Nat) : MCore × List (Nat × MServerMsg) :=
  match socksFind c.sockets sid with
  | none => (c, [])
  | some sk =>
    match alookup sk.channel_senders senderId with
    | none =>
      (c, [(sid, .senderMessage senderId (.error .sessionSenderIdIsNotExist))])
    | some _ =>
      let c' : MCore :=
        { c with sockets := (updateSocks c.sockets sid
            (fun s => { s with channel_senders := aremove s.channel_senders senderId })) }
      (c', broadcastEmits c')

/-- `Socket::exit_channel` (`src/server/src/socket.rs`, lines 369-381).
Only the strong receiver reference is removed: the channel's receiver
slot keeps its dead weak reference and no broadcast is sent. -/
def hExitChannel (c : MCore) (sid rid : Nat) : MCore × List (Nat × MServerMsg) :=
  match socksFind c.sockets sid with
  | none => (c, [])
  | some sk =>
    match alookup sk.channel_receivers rid with
    | none =>
      (c, [(sid, .receiverMessage rid (.error .sessionReceiverIdIsNotExist))])
    | some _ =>
      ({ c with sockets := (updateSocks c.sockets sid
          (fun s => { s with channel_receivers := aremove s.channel_receivers rid })) },
        [])

/-- `Socket::send_offer` (`src/server/src/socket.rs`, lines 383-407). -/
def hSendOffer (c : MCore) (sid senderId : Nat) (sdp : String) :
    MCore × List (Nat × MServerMsg) :=
  match ownedChannel c sid senderId with
  | none =>
    (c, [(sid, .senderMessage senderId (.error .sessionSenderIdIsNotExist))])
  | some ch =>
    let c' := updateOwnChannel c sid senderId
      (fun chX => { chX with session_description := some sdp })
    match ch.kind with
    | .peerToPeer slot =>
      match slot with
      | some a =>
        match findReceiverByAlloc c'.sockets a with
        | some r => (c', [(r.1, .receiverMessage r.2.session_receiver_id (.channelOffer sdp))])
        | none => (c', [])
      | none => (c', [])
    | .clientServer _ => (c', [])

/-- `Socket::sender_ice_candidate` (`src/server/src/socket.rs`,
lines 436-465): append the candidate, clear `all_sent`, forward. -/
def hSenderIce (c : MCore) (sid senderId : Nat) (cnd : MIceCandidate) :
    MCore × List (Nat × MServerMsg) :=
  match ownedChannel c sid senderId with
  | none =>
    (c, [(sid, .senderMessage senderId (.error .sessionSenderIdIsNotExist))])
  | some ch =>
    let c' := updateOwnChannel c sid senderId
      (fun chX =>
        { chX with ice_candidates :=
            ⟨chX.ice_candidates.candidates ++ [cnd], false⟩ })
    match ch.kind with
    | .peerToPeer slot =>
      match slot with
      | some a =>
        match findReceiverByAlloc c'.sockets a with
        | some r => (c', [(r.1, .receiverMessage r.2.session_receiver_id (.iceCandidate cnd))])
        | none => (c', [])
      | none => (c', [])
    | .clientServer _ => (c', [])

/-- `Socket::sender_all_ice_candidate_sent` (`src/server/src/socket.rs`,
lines 499-523): set `all_sent`, forward. -/
def hSenderAllSent (c : MCore) (sid senderId : Nat) : MCore × List (Nat × MServerMsg) :=
  match ownedChannel c sid senderId with
  | none =>
    (c, [(sid, .senderMessage senderId (.error .sessionSenderIdIsNotExist))])
  | some ch =>
    let c' := updateOwnChannel c sid senderId
      (fun chX =>
        { chX with ice_candidates := ⟨chX.ice_candidates.candidates, true⟩ })
    match ch.kind with
    | .peerToPeer slot =>
      match slot with
      | some a =>
        match findReceiverByAlloc c'.sockets a with
        | some r => (c', [(r.1, .receiverMessage r.2.session_receiver_id .allIceCandidatesSent)])
        | none => (c', [])
      | none => (c', [])
    | .clientServer _ => (c', [])

/-- `Socket::send_binary_data` (`src/server/src/socket.rs`, lines
552-572): stateless forwarding to the bound receiver. -/
def hSendBinaryData (c : MCore) (sid senderId : Nat) (data : List Nat) :
    MCore × List (Nat × MServerMsg) :=
  match ownedChannel c sid senderId with
  | none =>
    (c, [(sid, .senderMessage senderId (.error .sessionSenderIdIsNotExist))])
  | some ch =>
    match ch.kind with
    | .peerToPeer slot =>
      match slot with
      | some a =>
        match findReceiverByAlloc c.sockets a with
        | some r => (c, [(r.1, .receiverMessage r.2.session_receiver_id (.binaryData data))])
        | none => (c, [])
      | none => (c, [])
    | .clientServer _ => (c, [])

/-- `Socket::send_answer` (`src/server/src/socket.rs`, lines 409-434). -/
def hSendAnswer (c : MCore) (sid rid : Nat) (sdp : String) :
    MCore × List (Nat × MServerMsg) :=
  match ownedReceiver c sid rid with
  | none =>
    (c, [(sid, .receiverMessage rid (.error .sessionReceiverIdIsNotExist))])
  | some r =>
    let c' := updateOwnReceiver c sid rid
      (fun rX => { rX with session_description := some sdp })
    match findChannelByAlloc c'.sockets r.channel with
    | none => (c', [])
    | some q =>
      match q.2.2.kind with
      | .peerToPeer _ =>
        (c', [(q.1, .senderMessage q.2.2.session_sender_id (.channelAnswer sdp))])
      | .clientServer _ => (c', [])

/-- `Socket::receiver_ice_candidate` (`src/server/src/socket.rs`,
lines 467-497). -/
def hReceiverIce (c : MCore) (sid rid : Nat) (cnd : MIceCandidate) :
    MCore × List (Nat × MServerMsg) :=
  match ownedReceiver c sid rid with
  | none =>
    (c, [(sid, .receiverMessage rid (.error .sessionReceiverIdIsNotExist))])
  | some r =>
    let c' := updateOwnReceiver c sid rid
      (fun rX =>
        { rX with ice_candidates := ⟨rX.ice_candidates.candidates ++ [cnd], false⟩ })
    match findChannelByAlloc c'.sockets r.channel with
    | none => (c', [])
    | some q =>
      match q.2.2.kind with
      | .peerToPeer _ =>
        (c', [(q.1, .senderMessage q.2.2.session_sender_id (.iceCandidate cnd))])
      | .clientServer _ => (c', [])

/-- `Socket::receiver_all_ice_candidate_sent` (`src/server/src/socket.rs`,
lines 525-550). -/
def hReceiverAllSent (c : MCore) (sid rid : Nat) : MCore × List (Nat × MServerMsg) :=
  match ownedReceiver c sid rid with
  | none =>
    (c, [(sid, .receiverMessage rid (.error .sessionReceiverIdIsNotExist))])
  | some r =>
    let c' := updateOwnReceiver c sid rid
      (fun rX => { rX with ice_candidates := ⟨rX.ice_candidates.candidates, true⟩ })
    match findChannelByAlloc c'.sockets r.channel with
    | none => (c', [])
    | some q =>
      match q.2.2.kind with
      | .peerToPeer _ =>
        (c', [(q.1, .senderMessage q.2.2.session_sender_id .allIceCandidatesSent)])
      | .clientServer _ => (c', [])

/-- Dispatch of decoded client messages (`Socket::run`, match on
`ClientMessage`, `src/server/src/socket.rs`, lines 80-122). -/
def handleClientMsg (c : MCore) (sid : Nat) : MClientMsg → MCore × List (Nat × MServerMsg)
  | .senderMessage senderId msg =>
    match msg with
    | .openChannel cid mode => hOpenChannel c sid senderId cid mode
    | .closeChannel => hCloseChannel c sid senderId
    | .sendOffer sdp => hSendOffer c sid senderId sdp
    | .iceCandidate cnd => hSenderIce c sid senderId cnd
    | .allIceCandidatesSent => hSenderAllSent c sid senderId
    | .sendBinaryData d => hSendBinaryData c sid senderId d
  | .receiverMessage rid msg =>
    match msg with
    | .joinChannel cid => hJoinChannel c sid rid cid
    | .exitChannel => hExitChannel c sid rid
    | .sendAnswer sdp => hSendAnswer c sid rid sdp
    | .iceCandidate cnd => hReceiverIce c sid rid cnd
    | .allIceCandidatesSent => hReceiverAllSent c sid rid

/-- `Socket::clear` (`src/server/src/socket.rs`, lines 144-160) followed
by the `update_open_channel_ids` call of `Server::run`
(`src/server/src/server.rs`, line 46): the owned channels' registry
entries are removed, the sender-map entry is removed, the socket (with
all its strong references) is destroyed, and a broadcast follows. -/
def teardown (c : MCore) (sid : Nat) : MCore × List (Nat × MServerMsg) :=
  match socksFind c.sockets sid with
  | none => (c, [])
  | some sk =>
    let ownedIds := sk.channel_senders.map (fun p => p.2.channel_id)
    let c' : MCore :=
      { channels := c.channels.filter (fun p => !(ownedIds.contains p.1)),
        senders := c.senders.filter (fun x => !(x == sid)),
        sockets := c.sockets.filter (fun s => !(s.sid == sid)),
        nextAlloc := c.nextAlloc }
    (c', broadcastEmits c')

/-- The effect of the task panic raised by
`self.socket_receiver.next().await.unwrap().unwrap()`
(`src/server/src/socket.rs`, line 75) when the transport fails: the task
unwinds, dropping the `Socket` and with it every strong reference, but
`Socket::clear` never runs — the sender-map entry and the registry
entries stay behind as dead weak references, and the post-`run` broadcast
of `Server::run` is skipped. -/
def unwindDrop (c : MCore) (sid : Nat) : MCore :=
  { c with sockets := c.sockets.filter (fun s => !(s.sid == sid)) }

/-- One event on a socket's websocket stream, as observed by the read
loop of `Socket::run`: a binary frame (already passed through
`bincode::deserialize`, `none` for a decode failure), a clean `Close`
frame, some other frame kind, or a transport failure (`next()` yields
`None` or an error). -/
inductive MSocketEvent
  | binary (m : Option MClientMsg)
  | closeFrame
  | otherFrame
  | readFailure
deriving DecidableEq, Repr

/-- A hub-level operation: a new connection or an event on an existing
one. -/
inductive MOp
  | connect (sid : Nat)
  | event (sid : Nat) (e : MSocketEvent)
deriving DecidableEq, Repr

/-- Append one frame to the write history of socket `sid`. -/
def pushOut (outs : List (Nat × List MServerMsg)) (sid : Nat) (m : MServerMsg) :
    List (Nat × List MServerMsg) :=
  outs.map (fun p => if p.1 = sid then (p.1, p.2 ++ [m]) else p)

/-- Deliver a list of frames, in order, to their destinations. -/
def applyEmits (outs : List (Nat × List MServerMsg)) :
    List (Nat × MServerMsg) → List (Nat × List MServerMsg)
  | [] => outs
  | e :: t => applyEmits (pushOut outs e.1 e.2) t

/-- `Socket::new` (`src/server/src/socket.rs`, lines 33-66): register the
connection in the hub's sender map (fresh id asserted) and broadcast. -/
def connectOp (s : MState) (sid : Nat) : MState :=
  if (socksFind s.core.sockets sid).isSome || s.core.senders.contains sid then s
  else
    let c' : MCore :=
      { s.core with
        senders := s.core.senders ++ [sid],
        sockets := s.core.sockets ++ [{ sid := sid, channel_senders := [], channel_receivers := [] }] }
    { core := c', outs := applyEmits (s.outs ++ [(sid, [])]) (broadcastEmits c') }

/-- One step of the system: the read loop of `Socket::run`
(`src/server/src/socket.rs`, lines 74-142) handling one stream event, or
a new connection. -/
def step (s : MState) : MOp → MState
  | .connect sid => connectOp s sid
  | .event sid e =>
    match e with
    | .binary none => s
    | .binary (some m) =>
      let p := handleClientMsg s.core sid m
      { core := p.1, outs := applyEmits s.outs p.2 }
    | .closeFrame =>
      let p := teardown s.core sid
      { core := p.1, outs := applyEmits s.outs p.2 }
    | .otherFrame =>
      let p := teardown s.core sid
      { core := p.1, outs := applyEmits s.outs p.2 }
    | .readFailure => { core := unwindDrop s.core sid, outs := s.outs }

/-- The empty hub state at process start. -/
def initState : MState :=
  { core := { channels := [], senders := [], sockets := [], nextAlloc := 0 }, outs := [] }

/-- Run a list of operations from a given state. -/
def runOps (s : MState) (ops : List MOp) : MState := ops.foldl step s

/-- Run a list of operations from the initial state. -/
def runTrace (ops : List MOp) : MState := runOps initState ops

/-- The write history of socket `sid`. -/
def outboxOf (s : MState) (sid : Nat) : List MServerMsg := (alookup s.outs sid).getD []

/-- The frames of an emission list destined for socket `sid`, in order. -/
def emitsFor (sid : Nat) : List (Nat × MServerMsg) → List MServerMsg
  | [] => []
  | e :: t => if e.1 = sid then e.2 :: emitsFor sid t else emitsFor sid t

/-- `true` unless the frame is one of the two never-sent success variants
`ServerSenderMessage::OpenChannelSuccess` /
`ServerReceiverMessage::JoinChannelSuccess`. -/
def successFree : MServerMsg → Bool
  | .senderMessage _ .openChannelSuccess => false
  | .receiverMessage _ .joinChannelSuccess => false
  | _ => true

/-- Every frame ever written to any connection satisfies `successFree`. -/
def OutsFree (outs : List (Nat × List MServerMsg)) : Prop :=
  ∀ p, p ∈ outs → ∀ m, m ∈ p.2 → successFree m = true

/-- The channel created by a successful `Socket::open_channel`. -/
def freshChannel (c : MCore) (senderId : Nat) (cid : String) : MChannel :=
  { alloc := c.nextAlloc, channel_id := cid, session_sender_id := senderId,
    session_description := none, ice_candidates := ⟨[], false⟩,
    kind := .peerToPeer none }

/-- The core state after a successful `Socket::open_channel`. -/
def openSuccessCore (c : MCore) (sid senderId : Nat) (cid : String) : MCore :=
  { c with
    channels := c.channels ++ [(cid, c.nextAlloc)],
    sockets := (updateSocks c.sockets sid
      (fun s => { s with channel_senders :=
        s.channel_senders ++ [(senderId, freshChannel c senderId cid)] })),
    nextAlloc := c.nextAlloc + 1 }

/-- The `ChannelReceiver` created by a successful `Socket::join_channel`. -/
def freshReceiver (c : MCore) (rid : Nat) (ch : MChannel) : MReceiver :=
  { alloc := c.nextAlloc, channel := ch.alloc, session_receiver_id := rid,
    session_description := none, ice_candidates := ⟨[], false⟩ }

/-- The core state after a successful peer-to-peer `Socket::join_channel`:
the channel's receiver slot is replaced by a weak reference to the fresh
receiver, which is stored strongly in the joining socket's receiver map. -/
def joinSuccessCore (c : MCore) (sid rid : Nat) (ch : MChannel) : MCore :=
  { c with
    sockets := (updateSocks
      (updateChannelByAlloc c.sockets ch.alloc
        (fun chX => { chX with kind := .peerToPeer (some c.nextAlloc) })) sid
      (fun s => { s with channel_receivers :=
        s.channel_receivers ++ [(rid, freshReceiver c rid ch)] })),
    nextAlloc := c.nextAlloc + 1 }

/-- Every frame of an emission list satisfies `successFree`. -/
def emitsFree (es : List (Nat × MServerMsg)) : Prop :=
  ∀ e, e ∈ es → successFree e.2 = true

/-- Trace fixture: two connections; socket 0 opens channel `"k"`
(session sender id 5). -/
def trOpen : List MOp :=
  [.connect 0, .connect 1,
   .event 0 (.binary (some (.senderMessage 5 (.openChannel "k" .peerToPeer))))]

/-- Trace fixture: `trOpen`, then socket 1 joins `"k"` (session receiver
id 7). -/
def trOpenJoin : List MOp :=
  trOpen ++ [.event 1 (.binary (some (.receiverMessage 7 (.joinChannel "k"))))]

/-- Trace fixture: `trOpenJoin`, then the receiver exits. -/
def trOpenJoinExit : List MOp :=
  trOpenJoin ++ [.event 1 (.binary (some (.receiverMessage 7 .exitChannel)))]

/-- Trace fixture: `trOpen`, then the owner closes the channel with
`CloseChannel`. -/
def trOpenClose : List MOp :=
  trOpen ++ [.event 0 (.binary (some (.senderMessage 5 .closeChannel)))]

/-- State fixture: an ICE candidate. -/
def exCand : MIceCandidate :=
  { candidate := "cand1", sdp_mid := some "0", sdp_m_line_index := some 0 }

/-- State fixture: a channel owned by session sender 5 with a stored
offer, one accumulated candidate and the all-sent flag set; no receiver
has ever been bound. -/
def exChannel : MChannel :=
  { alloc := 0, channel_id := "k", session_sender_id := 5,
    session_description := some "v=0", ice_candidates := ⟨[exCand], true⟩,
    kind := .peerToPeer none }

/-- State fixture: socket 0 owns `exChannel` under the id `"k"`; socket 1
is idle. -/
def exCore : MCore :=
  { channels := [("k", 0)], senders := [0, 1],
    sockets := [⟨0, [(5, exChannel)], []⟩, ⟨1, [], []⟩], nextAlloc := 1 }

/-- State fixture: empty write histories for the two sockets of
`exCore`. -/
def exOuts : List (Nat × List MServerMsg) := [(0, []), (1, [])]

end SigModel

namespace SigWire

/-- A byte. -/
abbrev Byte := Fin 256

/-- Byte strings: the payloads of Rust `String` and `Vec<u8>` values
(the hub treats SDP blobs and channel ids as opaque). -/
abbrev Bytes := List Byte

/-- Truncate a natural number to one byte. -/
def byte (n : Nat) : Byte := ⟨n % 256, Nat.mod_lt n (by decide)⟩

/-- Little-endian `u8`. -/
def encU8 (n : Nat) : Bytes := [byte n]

/-- Little-endian `u16`. -/
def encU16 (n : Nat) : Bytes := [byte n, byte (n / 256)]

/-- Little-endian `u32` (also the bincode enum tag). -/
def encU32 (n : Nat) : Bytes :=
  [byte n, byte (n / 256), byte (n / 65536), byte (n / 16777216)]

/-- Little-endian `u64` (the bincode length prefix). -/
def encU64 (n : Nat) : Bytes :=
  [byte n, byte (n / 256), byte (n / 65536), byte (n / 16777216),
   byte (n / 4294967296), byte (n / 1099511627776), byte (n / 281474976710656),
   byte (n / 72057594037927936)]

def decU8 : Bytes → Option (Nat × Bytes)
  | b :: r => some (b.val, r)
  | [] => none

def decU16 : Bytes → Option (Nat × Bytes)
  | b0 :: b1 :: r => some (b0.val + 256 * b1.val, r)
  | _ => none

def decU32 : Bytes → Option (Nat × Bytes)
  | b0 :: b1 :: b2 :: b3 :: r =>
    some (b0.val + 256 * b1.val + 65536 * b2.val + 16777216 * b3.val, r)
  | _ => none

def decU64 : Bytes → Option (Nat × Bytes)
  | b0 :: b1 :: b2 :: b3 :: b4 :: b5 :: b6 :: b7 :: r =>
    some (b0.val + 256 * b1.val + 65536 * b2.val + 16777216 * b3.val
      + 4294967296 * b4.val + 1099511627776 * b5.val + 281474976710656 * b6.val
      + 72057594037927936 * b7.val, r)
  | _ => none

/-- Read exactly `n` bytes. -/
def decTake : Nat → Bytes → Option (Bytes × Bytes)
  | 0, r => some ([], r)
  | _ + 1, [] => none
  | n + 1, b :: r => (decTake n r).map (fun p => (b :: p.1, p.2))

/-- `String` / `Vec<u8>`: 64-bit length prefix followed by the raw
bytes. -/
def encBytes (s : Bytes) : Bytes := encU64 s.length ++ s

def decBytes (bs : Bytes) : Option (Bytes × Bytes) :=
  match decU64 bs with
  | none => none
  | some (n, r) => decTake n r

/-- `Option`: a one-byte tag (0 = `None`, 1 = `Some`) followed by the
payload iff the tag is 1. -/
def encOpt {α : Type} (f : α → Bytes) : Option α → Bytes
  | none => encU8 0
  | some a => encU8 1 ++ f a

def decOpt {α : Type} (f : Bytes → Option (α × Bytes)) (bs : Bytes) :
    Option (Option α × Bytes) :=
  match decU8 bs with
  | none => none
  | some (tag, r) =>
    if tag = 0 then some (none, r)
    else if tag = 1 then (f r).map (fun p => (some p.1, p.2))
    else none

/-- A list payload: the elements' encodings concatenated. -/
def encListPayload {α : Type} (f : α → Bytes) : List α → Bytes
  | [] => []
  | a :: t => f a ++ encListPayload f t

/-- `Vec<T>`: 64-bit length prefix followed by the elements. -/
def encList {α : Type} (f : α → Bytes) (l : List α) : Bytes :=
  encU64 l.length ++ encListPayload f l

def decListN {α : Type} (f : Bytes → Option (α × Bytes)) :
    Nat → Bytes → Option (List α × Bytes)
  | 0, r => some ([], r)
  | n + 1, r =>
    match f r with
    | none => none
    | some (a, r1) =>
      match decListN f n r1 with
      | none => none
      | some (t, r2) => some (a :: t, r2)

def decList {α : Type} (f : Bytes → Option (α × Bytes)) (bs : Bytes) :
    Option (List α × Bytes) :=
  match decU64 bs with
  | none => none
  | some (n, r) => decListN f n r

/-- `IceCandidate` of `src/signaling-protocol/src/lib.rs`, field order
normative: `candidate`, `sdp_mid`, `sdp_m_line_index` (`u16`). -/
structure WIceCandidate where
  candidate : Bytes
  sdp_mid : Option Bytes
  sdp_m_line_index : Option Nat
deriving DecidableEq, Repr

/-- `NetworkMode`: tags 0 = `PeerToPeer`, 1 = `ClientServer`. -/
inductive WNetworkMode
  | peerToPeer
  | clientServer
deriving DecidableEq, Repr

/-- `ClientSenderMessage`, declaration order normative for the tags. -/
inductive WClientSenderMsg
  | openChannel (channel_id : Bytes) (network_mode : WNetworkMode)
  | closeChannel
  | sendOffer (sdp : Bytes)
  | iceCandidate (c : WIceCandidate)
  | allIceCandidatesSent
  | sendBinaryData (data : Bytes)
deriving DecidableEq, Repr

/-- `ClientReceiverMessage`. -/
inductive WClientReceiverMsg
  | joinChannel (channel_id : Bytes)
  | exitChannel
  | sendAnswer (sdp : Bytes)
  | iceCandidate (c : WIceCandidate)
  | allIceCandidatesSent
deriving DecidableEq, Repr

/-- `ClientMessage`. -/
inductive WClientMsg
  | senderMessage (sender_id : Nat) (message : WClientSenderMsg)
  | receiverMessage (receiver_id : Nat) (message : WClientReceiverMsg)
deriving DecidableEq, Repr

/-- `ServerSenderErrorMessage`. -/
inductive WServerSenderError
  | sessionSenderIdIsAlreadyUsed
  | sessionSenderIdIsNotExist
  | channelIdIsAlreadyUsed (channel_id : Bytes)
deriving DecidableEq, Repr

/-- `ServerReceiverErrorMessage`. -/
inductive WServerReceiverError
  | sessionReceiverIdIsAlreadyUsed
  | sessionReceiverIdIsNotExist
  | channelIsNotExist (channel_id : Bytes)
  | channelIsAlreadyOccupied (channel_id : Bytes)
deriving DecidableEq, Repr

/-- `ServerSenderMessage`. -/
inductive WServerSenderMsg
  | openChannelSuccess
  | channelAnswer (sdp : Bytes)
  | iceCandidate (c : WIceCandidate)
  | allIceCandidatesSent
  | error (e : WServerSenderError)
deriving DecidableEq, Repr

/-- `ServerReceiverMessage`. -/
inductive WServerReceiverMsg
  | joinChannelSuccess
  | channelOffer (sdp : Bytes)
  | iceCandidate (c : WIceCandidate)
  | allIceCandidatesSent
  | binaryData (data : Bytes)
  | error (e : WServerReceiverError)
deriving DecidableEq, Repr

/-- `ServerMessage`. -/
inductive WServerMsg
  | openChannelIdsChanged (ids : List Bytes)
  | senderMessage (sender_id : Nat) (message : WServerSenderMsg)
  | receiverMessage (receiver_id : Nat) (message : WServerReceiverMsg)
deriving DecidableEq, Repr

def encIce (c : WIceCandidate) : Bytes :=
  encBytes c.candidate ++ encOpt encBytes c.sdp_mid ++ encOpt encU16 c.sdp_m_line_index

def decIce (bs : Bytes) : Option (WIceCandidate × Bytes) :=
  match decBytes bs with
  | none => none
  | some (cand, r1) =>
    match decOpt decBytes r1 with
    | none => none
    | some (mid, r2) =>
      match decOpt decU16 r2 with
      | none => none
      | some (idx, r3) => some (⟨cand, mid, idx⟩, r3)

def encNetworkMode : WNetworkMode → Bytes
  | .peerToPeer => encU32 0
  | .clientServer => encU32 1

def decNetworkMode (bs : Bytes) : Option (WNetworkMode × Bytes) :=
  match decU32 bs with
  | none => none
  | some (tag, r) =>
    if tag = 0 then some (.peerToPeer, r)
    else if tag = 1 then some (.clientServer, r)
    else none

def encClientSenderMsg : WClientSenderMsg → Bytes
  | .openChannel cid mode => encU32 0 ++ encBytes cid ++ encNetworkMode mode
  | .closeChannel => encU32 1
  | .sendOffer sdp => encU32 2 ++ encBytes sdp
  | .iceCandidate c => encU32 3 ++ encIce c
  | .allIceCandidatesSent => encU32 4
  | .sendBinaryData d => encU32 5 ++ encBytes d

def decClientSenderMsg (bs : Bytes) : Option (WClientSenderMsg × Bytes) :=
  match decU32 bs with
  | none => none
  | some (tag, r) =>
    if tag = 0 then
      match decBytes r with
      | none => none
      | some (cid, r1) =>
        match decNetworkMode r1 with
        | none => none
        | some (mode, r2) => some (.openChannel cid mode, r2)
    else if tag = 1 then some (.closeChannel, r)
    else if tag = 2 then (decBytes r).map (fun p => (.sendOffer p.1, p.2))
    else if tag = 3 then (decIce r).map (fun p => (.iceCandidate p.1, p.2))
    else if tag = 4 then some (.allIceCandidatesSent, r)
    else if tag = 5 then (decBytes r).map (fun p => (.sendBinaryData p.1, p.2))
    else none

def encClientReceiverMsg : WClientReceiverMsg → Bytes
  | .joinChannel cid => encU32 0 ++ encBytes cid
  | .exitChannel => encU32 1
  | .sendAnswer sdp => encU32 2 ++ encBytes sdp
  | .iceCandidate c => encU32 3 ++ encIce c
  | .allIceCandidatesSent => encU32 4

def decClientReceiverMsg (bs : Bytes) : Option (WClientReceiverMsg × Bytes) :=
  match decU32 bs with
  | none => none
  | some (tag, r) =>
    if tag = 0 then (decBytes r).map (fun p => (.joinChannel p.1, p.2))
    else if tag = 1 then some (.exitChannel, r)
    else if tag = 2 then (decBytes r).map (fun p => (.sendAnswer p.1, p.2))
    else if tag = 3 then (decIce r).map (fun p => (.iceCandidate p.1, p.2))
    else if tag = 4 then some (.allIceCandidatesSent, r)
    else none

def encClientMsg : WClientMsg → Bytes
  | .senderMessage i m => encU32 0 ++ encU32 i ++ encClientSenderMsg m
  | .receiverMessage i m => encU32 1 ++ encU32 i ++ encClientReceiverMsg m

def decClientMsg (bs : Bytes) : Option (WClientMsg × Bytes) :=
  match decU32 bs with
  | none => none
  | some (tag, r) =>
    if tag = 0 then
      match decU32 r with
      | none => none
      | some (i, r1) =>
        match decClientSenderMsg r1 with
        | none => none
        | some (m, r2) => some (.senderMessage i m, r2)
    else if tag = 1 then
      match decU32 r with
      | none => none
      | some (i, r1) =>
        match decClientReceiverMsg r1 with
        | none => none
        | some (m, r2) => some (.receiverMessage i m, r2)
    else none

def encServerSenderError : WServerSenderError → Bytes
  | .sessionSenderIdIsAlreadyUsed => encU32 0
  | .sessionSenderIdIsNotExist => encU32 1
  | .channelIdIsAlreadyUsed cid => encU32 2 ++ encBytes cid

def decServerSenderError (bs : Bytes) : Option (WServerSenderError × Bytes) :=
  match decU32 bs with
  | none => none
  | some (tag, r) =>
    if tag = 0 then some (.sessionSenderIdIsAlreadyUsed, r)
    else if tag = 1 then some (.sessionSenderIdIsNotExist, r)
    else if tag = 2 then (decBytes r).map (fun p => (.channelIdIsAlreadyUsed p.1, p.2))
    else none

def encServerReceiverError : WServerReceiverError → Bytes
  | .sessionReceiverIdIsAlreadyUsed => encU32 0
  | .sessionReceiverIdIsNotExist => encU32 1
  | .channelIsNotExist cid => encU32 2 ++ encBytes cid
  | .channelIsAlreadyOccupied cid => encU32 3 ++ encBytes cid

def decServerReceiverError (bs : Bytes) : Option (WServerReceiverError × Bytes) :=
  match decU32 bs with
  | none => none
  | some (tag, r) =>
    if tag = 0 then some (.sessionReceiverIdIsAlreadyUsed, r)
    else if tag = 1 then some (.sessionReceiverIdIsNotExist, r)
    else if tag = 2 then (decBytes r).map (fun p => (.channelIsNotExist p.1, p.2))
    else if tag = 3 then (decBytes r).map (fun p => (.channelIsAlreadyOccupied p.1, p.2))
    else none

def encServerSenderMsg : WServerSenderMsg → Bytes
  | .openChannelSuccess => encU32 0
  | .channelAnswer sdp => encU32 1 ++ encBytes sdp
  | .iceCandidate c => encU32 2 ++ encIce c
  | .allIceCandidatesSent => encU32 3
  | .error e => encU32 4 ++ encServerSenderError e

def decServerSenderMsg (bs : Bytes) : Option (WServerSenderMsg × Bytes) :=
  match decU32 bs with
  | none => none
  | some (tag, r) =>
    if tag = 0 then some (.openChannelSuccess, r)
    else if tag = 1 then (decBytes r).map (fun p => (.channelAnswer p.1, p.2))
    else if tag = 2 then (decIce r).map (fun p => (.iceCandidate p.1, p.2))
    else if tag = 3 then some (.allIceCandidatesSent, r)
    else if tag = 4 then (decServerSenderError r).map (fun p => (.error p.1, p.2))
    else none

def encServerReceiverMsg : WServerReceiverMsg → Bytes
  | .joinChannelSuccess => encU32 0
  | .channelOffer sdp => encU32 1 ++ encBytes sdp
  | .iceCandidate c => encU32 2 ++ encIce c
  | .allIceCandidatesSent => encU32 3
  | .binaryData d => encU32 4 ++ encBytes d
  | .error e => encU32 5 ++ encServerReceiverError e

def decServerReceiverMsg (bs : Bytes) : Option (WServerReceiverMsg × Bytes) :=
  match decU32 bs with
  | none => none
  | some (tag, r) =>
    if tag = 0 then some (.joinChannelSuccess, r)
    else if tag = 1 then (decBytes r).map (fun p => (.channelOffer p.1, p.2))
    else if tag = 2 then (decIce r).map (fun p => (.iceCandidate p.1, p.2))
    else if tag = 3 then some (.allIceCandidatesSent, r)
    else if tag = 4 then (decBytes r).map (fun p => (.binaryData p.1, p.2))
    else if tag = 5 then (decServerReceiverError r).map (fun p => (.error p.1, p.2))
    else none

def encServerMsg : WServerMsg → Bytes
  | .openChannelIdsChanged ids => encU32 0 ++ encList encBytes ids
  | .senderMessage i m => encU32 1 ++ encU32 i ++ encServerSenderMsg m
  | .receiverMessage i m => encU32 2 ++ encU32 i ++ encServerReceiverMsg m

def decServerMsg (bs : Bytes) : Option (WServerMsg × Bytes) :=
  match decU32 bs with
  | none => none
  | some (tag, r) =>
    if tag = 0 then (decList decBytes r).map (fun p => (.openChannelIdsChanged p.1, p.2))
    else if tag = 1 then
      match decU32 r with
      | none => none
      | some (i, r1) =>
        match decServerSenderMsg r1 with
        | none => none
        | some (m, r2) => some (.senderMessage i m, r2)
    else if tag = 2 then
      match decU32 r with
      | none => none
      | some (i, r1) =>
        match decServerReceiverMsg r1 with
        | none => none
        | some (m, r2) => some (.receiverMessage i m, r2)
    else none

/-- One WebSocket binary frame carries exactly one message: decoding
requires the frame to be consumed entirely. -/
def deserializeClientMsg (bs : Bytes) : Except Unit WClientMsg :=
  match decClientMsg bs with
  | some (m, []) => .ok m
  | _ => .error ()

def serializeClientMsg (m : WClientMsg) : Bytes := encClientMsg m

def deserializeServerMsg (bs : Bytes) : Except Unit WServerMsg :=
  match decServerMsg bs with
  | some (m, []) => .ok m
  | _ => .error ()

def serializeServerMsg (m : WServerMsg) : Bytes := encServerMsg m

/-- Well-formedness: every `u16`/`u32` field fits its width and every
variable-length field is shorter than `2^64` (automatic for any value a
real process can hold). -/
def wfU16 (n : Nat) : Prop := n < 65536

def wfU32v (n : Nat) : Prop := n < 4294967296

def wfLen (s : Bytes) : Prop := s.length < 18446744073709551616

def wfOptBytes : Option Bytes → Prop
  | none => True
  | some s => wfLen s

def wfOptU16 : Option Nat → Prop
  | none => True
  | some n => wfU16 n

def wfIce (c : WIceCandidate) : Prop :=
  wfLen c.candidate ∧ wfOptBytes c.sdp_mid ∧ wfOptU16 c.sdp_m_line_index

def wfClientSenderMsg : WClientSenderMsg → Prop
  | .openChannel cid _ => wfLen cid
  | .sendOffer sdp => wfLen sdp
  | .iceCandidate c => wfIce c
  | .sendBinaryData d => wfLen d
  | _ => True

def wfClientReceiverMsg : WClientReceiverMsg → Prop
  | .joinChannel cid => wfLen cid
  | .sendAnswer sdp => wfLen sdp
  | .iceCandidate c => wfIce c
  | _ => True

def wfClientMsg : WClientMsg → Prop
  | .senderMessage i m => wfU32v i ∧ wfClientSenderMsg m
  | .receiverMessage i m => wfU32v i ∧ wfClientReceiverMsg m

def wfServerSenderError : WServerSenderError → Prop
  | .channelIdIsAlreadyUsed cid => wfLen cid
  | _ => True

def wfServerReceiverError : WServerReceiverError → Prop
  | .channelIsNotExist cid => wfLen cid
  | .channelIsAlreadyOccupied cid => wfLen cid
  | _ => True

def wfServerSenderMsg : WServerSenderMsg → Prop
  | .channelAnswer sdp => wfLen sdp
  | .iceCandidate c => wfIce c
  | .error e => wfServerSenderError e
  | _ => True

def wfServerReceiverMsg : WServerReceiverMsg → Prop
  | .channelOffer sdp => wfLen sdp
  | .iceCandidate c => wfIce c
  | .binaryData d => wfLen d
  | .error e => wfServerReceiverError e
  | _ => True

def wfServerMsg : WServerMsg → Prop
  | .openChannelIdsChanged ids =>
    ids.length < 18446744073709551616 ∧ ∀ s, s ∈ ids → wfLen s
  | .senderMessage i m => wfU32v i ∧ wfServerSenderMsg m
  | .receiverMessage i m => wfU32v i ∧ wfServerReceiverMsg m

end SigWire


namespace SigModel

/-! ### Association-list and outbox lemmas -/

theorem alookup_append {κ α : Type} [DecidableEq κ] (l l' : List (κ × α)) (k : κ) :
    alookup (l ++ l') k =
      match alookup l k with
      | some v => some v
      | none => alookup l' k := by
  induction l with
  | nil => simp [alookup]
  | cons p t ih =>
    by_cases h : p.1 = k <;> simp [alookup, h, ih]

theorem alookup_aupdate_self {κ α : Type} [DecidableEq κ] (l : List (κ × α)) (k : κ)
    (f : α → α) : alookup (aupdate l k f) k = (alookup l k).map f := by
  induction l with
  | nil => simp [alookup, aupdate]
  | cons p t ih =>
    simp only [aupdate] at ih
    by_cases h : p.1 = k <;> simp [alookup, aupdate, h, ih]

theorem alookup_aupdate_ne {κ α : Type} [DecidableEq κ] (l : List (κ × α)) (k k' : κ)
    (f : α → α) (h : k ≠ k') : alookup (aupdate l k f) k' = alookup l k' := by
  have h3 : k' ≠ k := Ne.symm h
  induction l with
  | nil => simp [alookup, aupdate]
  | cons p t ih =>
    simp only [aupdate] at ih
    by_cases h1 : p.1 = k
    · have h2 : p.1 ≠ k' := by rw [h1]; exact h
      simp [alookup, aupdate, h1, h2, h, h3, ih]
    · by_cases h2 : p.1 = k' <;> simp [alookup, aupdate, h1, h2, h, h3, ih]

theorem alookup_aremove_self {κ α : Type} [DecidableEq κ] (l : List (κ × α)) (k : κ) :
    alookup (aremove l k) k = none := by
  induction l with
  | nil => simp [alookup, aremove]
  | cons p t ih =>
    by_cases h : p.1 = k <;> simp [alookup, aremove, h, ih]

theorem alookup_aremove_ne {κ α : Type} [DecidableEq κ] (l : List (κ × α)) (k k' : κ)
    (h : k ≠ k') : alookup (aremove l k) k' = alookup l k' := by
  have h3 : k' ≠ k := Ne.symm h
  induction l with
  | nil => simp [alookup, aremove]
  | cons p t ih =>
    by_cases h1 : p.1 = k
    · have h2 : p.1 ≠ k' := by rw [h1]; exact h
      simp [alookup, aremove, h1, h2, h, h3, ih]
    · by_cases h2 : p.1 = k' <;> simp [alookup, aremove, h1, h2, h, h3, ih]

theorem pushOut_lookup_self (outs : List (Nat × List MServerMsg)) (sid : Nat)
    (m : MServerMsg) :
    alookup (pushOut outs sid m) sid = (alookup outs sid).map (fun b => b ++ [m]) := by
  induction outs with
  | nil => simp [alookup, pushOut]
  | cons p t ih =>
    simp only [pushOut] at ih
    by_cases h : p.1 = sid <;> simp [alookup, pushOut, h, ih]

theorem pushOut_lookup_ne (outs : List (Nat × List MServerMsg)) (d sid : Nat)
    (m : MServerMsg) (h : d ≠ sid) :
    alookup (pushOut outs d m) sid = alookup outs sid := by
  have h3 : sid ≠ d := Ne.symm h
  induction outs with
  | nil => simp [alookup, pushOut]
  | cons p t ih =>
    simp only [pushOut] at ih
    by_cases h1 : p.1 = d
    · have h2 : p.1 ≠ sid := by rw [h1]; exact h
      simp [alookup, pushOut, h1, h2, h, h3, ih]
    · by_cases h2 : p.1 = sid <;> simp [alookup, pushOut, h1, h2, h, h3, ih]

theorem applyEmits_lookup (es : List (Nat × MServerMsg))
    (outs : List (Nat × List MServerMsg)) (sid : Nat) (box : List MServerMsg)
    (h : alookup outs sid = some box) :
    alookup (applyEmits outs es) sid = some (box ++ emitsFor sid es) := by
  induction es generalizing outs box with
  | nil => simpa [applyEmits, emitsFor]
  | cons e t ih =>
    by_cases he : e.1 = sid
    · have h1 : alookup (pushOut outs e.1 e.2) sid = some (box ++ [e.2]) := by
        rw [he, pushOut_lookup_self, h]; rfl
      have h2 := ih (pushOut outs e.1 e.2) (box ++ [e.2]) h1
      rw [he] at h2
      simp [applyEmits, emitsFor, he, h2]
    · have h1 : alookup (pushOut outs e.1 e.2) sid = some box := by
        rw [pushOut_lookup_ne _ _ _ _ he]; exact h
      have h2 := ih (pushOut outs e.1 e.2) box h1
      simp [applyEmits, emitsFor, he, h2]

theorem emitsFor_append (sid : Nat) (a b : List (Nat × MServerMsg)) :
    emitsFor sid (a ++ b) = emitsFor sid a ++ emitsFor sid b := by
  induction a with
  | nil => simp [emitsFor]
  | cons e t ih =>
    by_cases h : e.1 = sid <;> simp [emitsFor, h, ih]

theorem emitsFor_map_self (sid : Nat) (l : List MServerMsg) :
    emitsFor sid (l.map (fun m => (sid, m))) = l := by
  induction l with
  | nil => simp [emitsFor]
  | cons m t ih => simp [emitsFor, ih]

end SigModel

namespace SigModel

/-! ### Socket-list lemmas -/

theorem socksFind_sid (socks : List MSock) (sid : Nat) (sk : MSock)
    (h : socksFind socks sid = some sk) : sk.sid = sid := by
  induction socks with
  | nil => simp [socksFind] at h
  | cons s t ih =>
    by_cases h1 : s.sid = sid
    · simp [socksFind, h1] at h; rw [← h]; exact h1
    · simp [socksFind, h1] at h; exact ih h

theorem socksFind_map (socks : List MSock) (g : MSock → MSock)
    (hg : ∀ s, (g s).sid = s.sid) (sid : Nat) :
    socksFind (socks.map g) sid = (socksFind socks sid).map g := by
  induction socks with
  | nil => simp [socksFind]
  | cons s t ih =>
    by_cases h1 : s.sid = sid
    · simp [socksFind, hg, h1]
    · simp [socksFind, hg, h1, ih]

theorem socksFind_updateSocks (socks : List MSock) (sid : Nat) (f : MSock → MSock)
    (hf : ∀ s, (f s).sid = s.sid) (sid' : Nat) :
    socksFind (updateSocks socks sid f) sid' =
      (socksFind socks sid').map (fun s => if s.sid = sid then f s else s) := by
  unfold updateSocks
  apply socksFind_map
  intro s
  by_cases h : s.sid = sid <;> simp [h, hf]

theorem ownedChannel_updateOwnChannel_self (c : MCore) (sid senderId : Nat)
    (f : MChannel → MChannel) :
    ownedChannel (updateOwnChannel c sid senderId f) sid senderId =
      (ownedChannel c sid senderId).map f := by
  unfold ownedChannel updateOwnChannel
  rw [socksFind_updateSocks _ _ _ (by intro s; rfl)]
  cases h : socksFind c.sockets sid with
  | none => simp
  | some sk =>
    have hs := socksFind_sid _ _ _ h
    simp [hs, alookup_aupdate_self]

theorem ownedReceiver_updateOwnReceiver_self (c : MCore) (sid rid : Nat)
    (f : MReceiver → MReceiver) :
    ownedReceiver (updateOwnReceiver c sid rid f) sid rid =
      (ownedReceiver c sid rid).map f := by
  unfold ownedReceiver updateOwnReceiver
  rw [socksFind_updateSocks _ _ _ (by intro s; rfl)]
  cases h : socksFind c.sockets sid with
  | none => simp
  | some sk =>
    have hs := socksFind_sid _ _ _ h
    simp [hs, alookup_aupdate_self]

/-- A socket update that does not change socket ids or sender maps leaves
every owned channel unchanged. -/
theorem ownedChannel_updateSocks_receivers (c : MCore) (sid : Nat) (f : MSock → MSock)
    (hsid : ∀ s, (f s).sid = s.sid) (hcs : ∀ s, (f s).channel_senders = s.channel_senders)
    (sidX senderIdX : Nat) :
    ownedChannel { c with sockets := updateSocks c.sockets sid f } sidX senderIdX =
      ownedChannel c sidX senderIdX := by
  unfold ownedChannel
  rw [socksFind_updateSocks _ _ _ hsid]
  cases h : socksFind c.sockets sidX with
  | none => simp
  | some sk => by_cases h2 : sk.sid = sid <;> simp [h2, hcs]

/-- `exit_channel` only touches the receiver map of one socket: every
channel owned by any socket is untouched. -/
theorem ownedChannel_hExitChannel (c : MCore) (sid rid sidX senderIdX : Nat) :
    ownedChannel (hExitChannel c sid rid).1 sidX senderIdX =
      ownedChannel c sidX senderIdX := by
  cases h1 : socksFind c.sockets sid with
  | none => simp [hExitChannel, h1]
  | some sk =>
    cases h2 : alookup sk.channel_receivers rid with
    | none => simp [hExitChannel, h1, h2]
    | some r =>
      simp only [hExitChannel, h1, h2]
      exact ownedChannel_updateSocks_receivers c sid
        (fun s => { s with channel_receivers := aremove s.channel_receivers rid })
        (fun s => rfl) (fun s => rfl) sidX senderIdX

end SigModel

namespace SigModel

/-! ### Handler characterization lemmas -/

theorem hOpenChannel_success_eq (c : MCore) (sid senderId : Nat) (cid : String) (sk : MSock)
    (hsk : socksFind c.sockets sid = some sk)
    (hfresh : alookup sk.channel_senders senderId = none)
    (hcid : alookup c.channels cid = none) :
    hOpenChannel c sid senderId cid .peerToPeer =
      (openSuccessCore c sid senderId cid,
        broadcastEmits (openSuccessCore c sid senderId cid)) := by
  simp only [hOpenChannel, hsk, hfresh, hcid]
  rfl

theorem hJoinChannel_success_eq (c : MCore) (sid rid : Nat) (cid : String) (sk : MSock)
    (ownerSid osid : Nat) (ch : MChannel) (slot : Option Nat)
    (hsk : socksFind c.sockets sid = some sk)
    (hrid : alookup sk.channel_receivers rid = none)
    (hch : registryUpgrade c cid = some (ownerSid, osid, ch))
    (hkind : ch.kind = .peerToPeer slot)
    (hocc : slotOccupied c.sockets slot = false) :
    hJoinChannel c sid rid cid =
      (joinSuccessCore c sid rid ch,
        (replayMsgs rid ch.session_description ch.ice_candidates).map (fun m => (sid, m))
          ++ broadcastEmits (joinSuccessCore c sid rid ch)) := by
  simp only [hJoinChannel, hsk, hrid, hch, hkind, hocc]
  rfl

theorem hJoinChannel_occupied_eq (c : MCore) (sid rid : Nat) (cid : String) (sk : MSock)
    (ownerSid osid : Nat) (ch : MChannel) (slot : Option Nat)
    (hsk : socksFind c.sockets sid = some sk)
    (hrid : alookup sk.channel_receivers rid = none)
    (hch : registryUpgrade c cid = some (ownerSid, osid, ch))
    (hkind : ch.kind = .peerToPeer slot)
    (hocc : slotOccupied c.sockets slot = true) :
    hJoinChannel c sid rid cid =
      (c, [(sid, .receiverMessage rid (.error (.channelIsAlreadyOccupied cid)))]) := by
  simp only [hJoinChannel, hsk, hrid, hch, hkind, hocc]
  rfl

theorem hCloseChannel_success_emits (c : MCore) (sid senderId : Nat) (sk : MSock)
    (ch : MChannel) (hsk : socksFind c.sockets sid = some sk)
    (hown : alookup sk.channel_senders senderId = some ch) :
    (hCloseChannel c sid senderId).2 = broadcastEmits (hCloseChannel c sid senderId).1 := by
  simp only [hCloseChannel, hsk, hown]

theorem teardown_emits (c : MCore) (sid : Nat) (sk : MSock)
    (hsk : socksFind c.sockets sid = some sk) :
    (teardown c sid).2 = broadcastEmits (teardown c sid).1 := by
  simp only [teardown, hsk]

theorem hExitChannel_success_emits (c : MCore) (sid rid : Nat) (sk : MSock) (r : MReceiver)
    (hsk : socksFind c.sockets sid = some sk)
    (hr : alookup sk.channel_receivers rid = some r) :
    (hExitChannel c sid rid).2 = [] := by
  simp only [hExitChannel, hsk, hr]

/-! ### Outbox monotonicity -/

theorem step_outbox_extends (s : MState) (op : MOp) (sid : Nat) (box : List MServerMsg)
    (h : alookup s.outs sid = some box) :
    ∃ t, alookup (step s op).outs sid = some (box ++ t) := by
  cases op with
  | connect sid' =>
    cases hcond : ((socksFind s.core.sockets sid').isSome || s.core.senders.contains sid') with
    | true =>
      refine ⟨[], ?_⟩
      simp only [step, connectOp, hcond]
      simp [h]
    | false =>
      have h1 : alookup (s.outs ++ [(sid', [])]) sid = some box := by
        rw [alookup_append, h]
      refine ⟨emitsFor sid (broadcastEmits
        { s.core with
          senders := s.core.senders ++ [sid'],
          sockets := s.core.sockets ++ [{ sid := sid', channel_senders := [], channel_receivers := [] }] }), ?_⟩
      simp only [step, connectOp, hcond]
      simpa using applyEmits_lookup _ _ _ _ h1
  | event sid' e =>
    cases e with
    | binary m =>
      cases m with
      | none => exact ⟨[], by simp [step, h]⟩
      | some msg =>
        exact ⟨emitsFor sid (handleClientMsg s.core sid' msg).2,
          by simpa [step] using applyEmits_lookup _ _ _ _ h⟩
    | closeFrame =>
      exact ⟨emitsFor sid (teardown s.core sid').2,
        by simpa [step] using applyEmits_lookup _ _ _ _ h⟩
    | otherFrame =>
      exact ⟨emitsFor sid (teardown s.core sid').2,
        by simpa [step] using applyEmits_lookup _ _ _ _ h⟩
    | readFailure => exact ⟨[], by simp [step, h]⟩

theorem runOps_outbox_extends (ops : List MOp) (s : MState) (sid : Nat)
    (box : List MServerMsg) (h : alookup s.outs sid = some box) :
    ∃ t, alookup (runOps s ops).outs sid = some (box ++ t) := by
  induction ops generalizing s box with
  | nil => exact ⟨[], by simpa [runOps]⟩
  | cons op t' ih =>
    obtain ⟨t0, h0⟩ := step_outbox_extends s op sid box h
    obtain ⟨t1, h1⟩ := ih (step s op) (box ++ t0) h0
    exact ⟨t0 ++ t1, by simpa [runOps, List.append_assoc] using h1⟩

end SigModel

namespace SigModel

/-! ### No handler ever emits a success variant -/

theorem emitsFree_nil : emitsFree [] := by
  intro e he
  simp at he

theorem emitsFree_singleton (d : Nat) (m : MServerMsg) (hm : successFree m = true) :
    emitsFree [(d, m)] := by
  intro e he
  rw [List.mem_singleton] at he
  rw [he]
  exact hm

theorem emitsFree_append (a b : List (Nat × MServerMsg)) (ha : emitsFree a)
    (hb : emitsFree b) : emitsFree (a ++ b) := by
  intro e he
  rw [List.mem_append] at he
  cases he with
  | inl h => exact ha e h
  | inr h => exact hb e h

theorem broadcastEmits_free (c : MCore) : emitsFree (broadcastEmits c) := by
  intro e he
  simp only [broadcastEmits, List.mem_map] at he
  obtain ⟨sid, _, rfl⟩ := he
  rfl

theorem replayMsgs_free (rid : Nat) (sd : Option String) (acc : MIceAcc) :
    ∀ m ∈ replayMsgs rid sd acc, successFree m = true := by
  intro m hm
  simp only [replayMsgs, List.mem_append] at hm
  rcases hm with (hm | hm) | hm
  · cases sd with
    | none => simp at hm
    | some o =>
      rw [List.mem_singleton] at hm
      rw [hm]; rfl
  · rw [List.mem_map] at hm
    obtain ⟨cnd, _, rfl⟩ := hm
    rfl
  · by_cases hall : acc.all_sent = true
    · rw [if_pos hall, List.mem_singleton] at hm
      rw [hm]; rfl
    · rw [if_neg hall] at hm
      simp at hm

theorem replayEmits_free (sid rid : Nat) (sd : Option String) (acc : MIceAcc) :
    emitsFree ((replayMsgs rid sd acc).map (fun m => (sid, m))) := by
  intro e he
  rw [List.mem_map] at he
  obtain ⟨m, hm, rfl⟩ := he
  exact replayMsgs_free rid sd acc m hm

theorem hOpenChannel_free (c : MCore) (sid senderId : Nat) (cid : String)
    (mode : MNetworkMode) : emitsFree (hOpenChannel c sid senderId cid mode).2 := by
  unfold hOpenChannel
  try dsimp only
  repeat' split
  all_goals
    first
    | exact emitsFree_nil
    | (refine emitsFree_singleton _ _ ?_; rfl)
    | exact broadcastEmits_free _

theorem hJoinChannel_free (c : MCore) (sid rid : Nat) (cid : String) :
    emitsFree (hJoinChannel c sid rid cid).2 := by
  unfold hJoinChannel
  try dsimp only
  repeat' split
  all_goals
    first
    | exact emitsFree_nil
    | (refine emitsFree_singleton _ _ ?_; rfl)
    | exact broadcastEmits_free _
    | exact emitsFree_append _ _ (replayEmits_free _ _ _ _) (broadcastEmits_free _)

theorem hCloseChannel_free (c : MCore) (sid senderId : Nat) :
    emitsFree (hCloseChannel c sid senderId).2 := by
  unfold hCloseChannel
  try dsimp only
  repeat' split
  all_goals
    first
    | exact emitsFree_nil
    | (refine emitsFree_singleton _ _ ?_; rfl)
    | exact broadcastEmits_free _

theorem hExitChannel_free (c : MCore) (sid rid : Nat) :
    emitsFree (hExitChannel c sid rid).2 := by
  unfold hExitChannel
  try dsimp only
  repeat' split
  all_goals
    first
    | exact emitsFree_nil
    | (refine emitsFree_singleton _ _ ?_; rfl)

theorem hSendOffer_free (c : MCore) (sid senderId : Nat) (sdp : String) :
    emitsFree (hSendOffer c sid senderId sdp).2 := by
  unfold hSendOffer
  try dsimp only
  repeat' split
  all_goals
    first
    | exact emitsFree_nil
    | (refine emitsFree_singleton _ _ ?_; rfl)

theorem hSenderIce_free (c : MCore) (sid senderId : Nat) (cnd : MIceCandidate) :
    emitsFree (hSenderIce c sid senderId cnd).2 := by
  unfold hSenderIce
  try dsimp only
  repeat' split
  all_goals
    first
    | exact emitsFree_nil
    | (refine emitsFree_singleton _ _ ?_; rfl)

theorem hSenderAllSent_free (c : MCore) (sid senderId : Nat) :
    emitsFree (hSenderAllSent c sid senderId).2 := by
  unfold hSenderAllSent
  try dsimp only
  repeat' split
  all_goals
    first
    | exact emitsFree_nil
    | (refine emitsFree_singleton _ _ ?_; rfl)

theorem hSendBinaryData_free (c : MCore) (sid senderId : Nat) (data : List Nat) :
    emitsFree (hSendBinaryData c sid senderId data).2 := by
  unfold hSendBinaryData
  try dsimp only
  repeat' split
  all_goals
    first
    | exact emitsFree_nil
    | (refine emitsFree_singleton _ _ ?_; rfl)

theorem hSendAnswer_free (c : MCore) (sid rid : Nat) (sdp : String) :
    emitsFree (hSendAnswer c sid rid sdp).2 := by
  unfold hSendAnswer
  try dsimp only
  repeat' split
  all_goals
    first
    | exact emitsFree_nil
    | (refine emitsFree_singleton _ _ ?_; rfl)

theorem hReceiverIce_free (c : MCore) (sid rid : Nat) (cnd : MIceCandidate) :
    emitsFree (hReceiverIce c sid rid cnd).2 := by
  unfold hReceiverIce
  try dsimp only
  repeat' split
  all_goals
    first
    | exact emitsFree_nil
    | (refine emitsFree_singleton _ _ ?_; rfl)

theorem hReceiverAllSent_free (c : MCore) (sid rid : Nat) :
    emitsFree (hReceiverAllSent c sid rid).2 := by
  unfold hReceiverAllSent
  try dsimp only
  repeat' split
  all_goals
    first
    | exact emitsFree_nil
    | (refine emitsFree_singleton _ _ ?_; rfl)

theorem teardown_free (c : MCore) (sid : Nat) : emitsFree (teardown c sid).2 := by
  unfold teardown
  try dsimp only
  repeat' split
  all_goals
    first
    | exact emitsFree_nil
    | exact broadcastEmits_free _

theorem handleClientMsg_free (c : MCore) (sid : Nat) (m : MClientMsg) :
    emitsFree (handleClientMsg c sid m).2 := by
  cases m with
  | senderMessage senderId msg =>
    cases msg with
    | openChannel cid mode => exact hOpenChannel_free c sid senderId cid mode
    | closeChannel => exact hCloseChannel_free c sid senderId
    | sendOffer sdp => exact hSendOffer_free c sid senderId sdp
    | iceCandidate cnd => exact hSenderIce_free c sid senderId cnd
    | allIceCandidatesSent => exact hSenderAllSent_free c sid senderId
    | sendBinaryData d => exact hSendBinaryData_free c sid senderId d
  | receiverMessage rid msg =>
    cases msg with
    | joinChannel cid => exact hJoinChannel_free c sid rid cid
    | exitChannel => exact hExitChannel_free c sid rid
    | sendAnswer sdp => exact hSendAnswer_free c sid rid sdp
    | iceCandidate cnd => exact hReceiverIce_free c sid rid cnd
    | allIceCandidatesSent => exact hReceiverAllSent_free c sid rid

end SigModel

namespace SigModel

theorem OutsFree_pushOut (outs : List (Nat × List MServerMsg)) (d : Nat) (m : MServerMsg)
    (ho : OutsFree outs) (hm : successFree m = true) : OutsFree (pushOut outs d m) := by
  intro p hp mm hmm
  unfold pushOut at hp
  rw [List.mem_map] at hp
  obtain ⟨q, hq, hpq⟩ := hp
  by_cases h : q.1 = d
  · rw [if_pos h] at hpq
    rw [← hpq] at hmm
    simp only [List.mem_append, List.mem_singleton] at hmm
    cases hmm with
    | inl hmem => exact ho q hq mm hmem
    | inr heq => rw [heq]; exact hm
  · rw [if_neg h] at hpq
    rw [← hpq] at hmm
    exact ho q hq mm hmm

theorem OutsFree_applyEmits (es : List (Nat × MServerMsg))
    (outs : List (Nat × List MServerMsg)) (ho : OutsFree outs) (he : emitsFree es) :
    OutsFree (applyEmits outs es) := by
  induction es generalizing outs with
  | nil => simpa [applyEmits] using ho
  | cons e t ih =>
    have h1 : successFree e.2 = true := he e (by simp)
    have h2 : emitsFree t := fun x hx => he x (by simp [hx])
    exact ih (pushOut outs e.1 e.2) (OutsFree_pushOut _ _ _ ho h1) h2

theorem OutsFree_append_nil (outs : List (Nat × List MServerMsg)) (sid : Nat)
    (ho : OutsFree outs) : OutsFree (outs ++ [(sid, [])]) := by
  intro p hp mm hmm
  rw [List.mem_append, List.mem_singleton] at hp
  cases hp with
  | inl h => exact ho p h mm hmm
  | inr h => rw [h] at hmm; simp at hmm

theorem step_OutsFree (s : MState) (op : MOp) (ho : OutsFree s.outs) :
    OutsFree (step s op).outs := by
  cases op with
  | connect sid =>
    cases hcond : ((socksFind s.core.sockets sid).isSome || s.core.senders.contains sid) with
    | true =>
      simp only [step, connectOp, hcond]
      simpa using ho
    | false =>
      simp only [step, connectOp, hcond]
      simp only [Bool.false_eq_true, if_false]
      exact OutsFree_applyEmits _ _ (OutsFree_append_nil _ _ ho) (broadcastEmits_free _)
  | event sid e =>
    cases e with
    | binary m =>
      cases m with
      | none => simpa [step] using ho
      | some msg =>
        exact OutsFree_applyEmits _ _ ho (handleClientMsg_free s.core sid msg)
    | closeFrame => exact OutsFree_applyEmits _ _ ho (teardown_free s.core sid)
    | otherFrame => exact OutsFree_applyEmits _ _ ho (teardown_free s.core sid)
    | readFailure => simpa [step] using ho

theorem runOps_OutsFree (ops : List MOp) (s : MState) (ho : OutsFree s.outs) :
    OutsFree (runOps s ops).outs := by
  induction ops generalizing s with
  | nil => simpa [runOps] using ho
  | cons op t ih =>
    have h1 := step_OutsFree s op ho
    have h2 := ih (step s op) h1
    simpa [runOps] using h2

theorem alookup_mem {κ α : Type} [DecidableEq κ] (l : List (κ × α)) (k : κ) (v : α)
    (h : alookup l k = some v) : ∃ p, p ∈ l ∧ p.2 = v := by
  induction l with
  | nil => simp [alookup] at h
  | cons p t ih =>
    by_cases h1 : p.1 = k
    · simp only [alookup, if_pos h1, Option.some_inj] at h
      exact ⟨p, by simp, h⟩
    · simp only [alookup, if_neg h1] at h
      obtain ⟨q, hq, hv⟩ := ih h
      exact ⟨q, by simp [hq], hv⟩

end SigModel

namespace SigModel

/-! ### Channel-upgrade computation lemmas -/

theorem chanInSends_alloc (l : List (Nat × MChannel)) (a : Nat) (p : Nat × MChannel)
    (h : chanInSends l a = some p) : p.2.alloc = a := by
  induction l with
  | nil => simp [chanInSends] at h
  | cons q t ih =>
    by_cases h1 : q.2.alloc = a
    · simp only [chanInSends, if_pos h1, Option.some_inj] at h
      rw [← h]; exact h1
    · simp only [chanInSends, if_neg h1] at h
      exact ih h

theorem findChannelByAlloc_alloc (socks : List MSock) (a : Nat) (t : Nat × Nat × MChannel)
    (h : findChannelByAlloc socks a = some t) : t.2.2.alloc = a := by
  induction socks with
  | nil => simp [findChannelByAlloc] at h
  | cons sk r ih =>
    cases hc : chanInSends sk.channel_senders a with
    | some p =>
      simp only [findChannelByAlloc, hc, Option.some_inj] at h
      rw [← h]
      exact chanInSends_alloc _ _ _ hc
    | none =>
      simp only [findChannelByAlloc, hc] at h
      exact ih h

theorem chanInSends_map_alloc (l : List (Nat × MChannel)) (a : Nat) (f : MChannel → MChannel)
    (hf : ∀ ch, (f ch).alloc = ch.alloc) :
    chanInSends (l.map (fun p => if p.2.alloc = a then (p.1, f p.2) else p)) a =
      (chanInSends l a).map (fun p => (p.1, f p.2)) := by
  induction l with
  | nil => simp [chanInSends]
  | cons q t ih =>
    by_cases h1 : q.2.alloc = a
    · simp only [List.map_cons, if_pos h1, chanInSends, hf, h1, if_true, if_pos]
      rfl
    · simp only [List.map_cons, if_neg h1, chanInSends, if_neg h1, ih]

theorem findChannelByAlloc_updateChannelByAlloc (socks : List MSock) (a : Nat)
    (f : MChannel → MChannel) (hf : ∀ ch, (f ch).alloc = ch.alloc) :
    findChannelByAlloc (updateChannelByAlloc socks a f) a =
      (findChannelByAlloc socks a).map (fun t => (t.1, t.2.1, f t.2.2)) := by
  induction socks with
  | nil => simp [findChannelByAlloc, updateChannelByAlloc]
  | cons sk r ih =>
    simp only [updateChannelByAlloc, List.map_cons]
    simp only [updateChannelByAlloc] at ih
    cases hc : chanInSends sk.channel_senders a with
    | some p =>
      have h2 := chanInSends_map_alloc sk.channel_senders a f hf
      rw [hc] at h2
      simp [findChannelByAlloc, h2, hc]
    | none =>
      have h2 := chanInSends_map_alloc sk.channel_senders a f hf
      rw [hc] at h2
      simp [findChannelByAlloc, h2, hc, ih]

theorem findChannelByAlloc_map_keep (socks : List MSock) (g : MSock → MSock)
    (hg : ∀ s, (g s).sid = s.sid) (hcs : ∀ s, (g s).channel_senders = s.channel_senders)
    (a : Nat) : findChannelByAlloc (socks.map g) a = findChannelByAlloc socks a := by
  induction socks with
  | nil => simp [findChannelByAlloc]
  | cons sk r ih =>
    simp only [List.map_cons, findChannelByAlloc, hcs, hg]
    cases hc : chanInSends sk.channel_senders a with
    | some p => rfl
    | none => exact ih

theorem findChannelByAlloc_updateSocks_receivers (socks : List MSock) (sid : Nat)
    (g : MSock → MSock) (hg : ∀ s, (g s).sid = s.sid)
    (hcs : ∀ s, (g s).channel_senders = s.channel_senders) (a : Nat) :
    findChannelByAlloc (updateSocks socks sid g) a = findChannelByAlloc socks a := by
  unfold updateSocks
  apply findChannelByAlloc_map_keep
  · intro s; by_cases h : s.sid = sid <;> simp [h, hg]
  · intro s; by_cases h : s.sid = sid <;> simp [h, hcs]

theorem socksFind_updateChannelByAlloc (socks : List MSock) (a : Nat)
    (f : MChannel → MChannel) (sid : Nat) :
    socksFind (updateChannelByAlloc socks a f) sid =
      (socksFind socks sid).map (fun sk =>
        { sk with channel_senders :=
            sk.channel_senders.map (fun p => if p.2.alloc = a then (p.1, f p.2) else p) }) := by
  unfold updateChannelByAlloc
  apply socksFind_map
  intro s
  rfl

/-! ### Core effect of the sender-state handlers -/

theorem hSendOffer_core (c : MCore) (sid senderId : Nat) (sdp : String) (ch : MChannel)
    (h : ownedChannel c sid senderId = some ch) :
    (hSendOffer c sid senderId sdp).1 =
      updateOwnChannel c sid senderId
        (fun chX => { chX with session_description := some sdp }) := by
  simp only [hSendOffer, h]
  cases hk : ch.kind with
  | peerToPeer slot =>
    cases slot with
    | none => rfl
    | some a =>
      cases hr : findReceiverByAlloc (updateOwnChannel c sid senderId
          (fun chX => { chX with session_description := some sdp })).sockets a with
      | none => simp only [hr]
      | some r => simp only [hr]
  | clientServer rs => rfl

theorem hSenderIce_core (c : MCore) (sid senderId : Nat) (cnd : MIceCandidate)
    (ch : MChannel) (h : ownedChannel c sid senderId = some ch) :
    (hSenderIce c sid senderId cnd).1 =
      updateOwnChannel c sid senderId
        (fun chX =>
          { chX with ice_candidates := ⟨chX.ice_candidates.candidates ++ [cnd], false⟩ }) := by
  simp only [hSenderIce, h]
  cases hk : ch.kind with
  | peerToPeer slot =>
    cases slot with
    | none => rfl
    | some a =>
      cases hr : findReceiverByAlloc (updateOwnChannel c sid senderId
          (fun chX =>
            { chX with ice_candidates := ⟨chX.ice_candidates.candidates ++ [cnd], false⟩ })).sockets a with
      | none => simp only [hr]
      | some r => simp only [hr]
  | clientServer rs => rfl

theorem hSenderAllSent_core (c : MCore) (sid senderId : Nat) (ch : MChannel)
    (h : ownedChannel c sid senderId = some ch) :
    (hSenderAllSent c sid senderId).1 =
      updateOwnChannel c sid senderId
        (fun chX => { chX with ice_candidates := ⟨chX.ice_candidates.candidates, true⟩ }) := by
  simp only [hSenderAllSent, h]
  cases hk : ch.kind with
  | peerToPeer slot =>
    cases slot with
    | none => rfl
    | some a =>
      cases hr : findReceiverByAlloc (updateOwnChannel c sid senderId
          (fun chX => { chX with ice_candidates := ⟨chX.ice_candidates.candidates, true⟩ })).sockets a with
      | none => simp only [hr]
      | some r => simp only [hr]
  | clientServer rs => rfl

end SigModel

namespace SigModel

theorem registryUpgrade_inv (c : MCore) (cid : String) (t : Nat × Nat × MChannel)
    (h : registryUpgrade c cid = some t) :
    alookup c.channels cid = some t.2.2.alloc ∧
      findChannelByAlloc c.sockets t.2.2.alloc = some t := by
  unfold registryUpgrade at h
  cases ha : alookup c.channels cid with
  | none => rw [ha] at h; exact absurd h (by simp)
  | some a =>
    rw [ha] at h
    have hall := findChannelByAlloc_alloc _ _ _ h
    rw [hall]
    exact ⟨rfl, h⟩

/-! ### Claim theorems -/

/-- C1: when `JoinChannel` succeeds on a peer-to-peer channel, the server
sends the joining receiver, in order, the stored offer if any, every
accumulated sender ICE candidate in insertion order, and
`AllIceCandidatesSent` iff the `all_sent` flag is set (the frame list
`replayMsgs`), and these frames precede, on the receiver's connection,
everything emitted by any later operations. -/
theorem C1_join_replay_order (c : MCore) (outs : List (Nat × List MServerMsg))
    (sid rid : Nat) (cid : String) (sk : MSock) (ownerSid osid : Nat) (ch : MChannel)
    (slot : Option Nat) (box : List MServerMsg)
    (hsk : socksFind c.sockets sid = some sk)
    (hrid : alookup sk.channel_receivers rid = none)
    (hch : registryUpgrade c cid = some (ownerSid, osid, ch))
    (hkind : ch.kind = .peerToPeer slot)
    (hocc : slotOccupied c.sockets slot = false)
    (hbox : alookup outs sid = some box) (ops : List MOp) :
    ∃ t, alookup (runOps (step ⟨c, outs⟩
        (.event sid (.binary (some (.receiverMessage rid (.joinChannel cid)))))) ops).outs sid =
      some (box ++ replayMsgs rid ch.session_description ch.ice_candidates ++ t) := by
  have hj := hJoinChannel_success_eq c sid rid cid sk ownerSid osid ch slot hsk hrid hch hkind hocc
  have h1 : alookup (applyEmits outs (hJoinChannel c sid rid cid).2) sid =
      some (box ++ emitsFor sid (hJoinChannel c sid rid cid).2) :=
    applyEmits_lookup _ _ _ _ hbox
  rw [hj] at h1
  simp only [emitsFor_append, emitsFor_map_self] at h1
  have hstep : (step ⟨c, outs⟩
      (.event sid (.binary (some (.receiverMessage rid (.joinChannel cid)))))).outs =
      applyEmits outs (hJoinChannel c sid rid cid).2 := rfl
  rw [hj] at hstep
  obtain ⟨t1, h2⟩ := runOps_outbox_extends ops
    (step ⟨c, outs⟩ (.event sid (.binary (some (.receiverMessage rid (.joinChannel cid)))))) sid
    (box ++ (replayMsgs rid ch.session_description ch.ice_candidates
      ++ emitsFor sid (broadcastEmits (joinSuccessCore c sid rid ch))))
    (by rw [hstep]; exact h1)
  refine ⟨emitsFor sid (broadcastEmits (joinSuccessCore c sid rid ch)) ++ t1, ?_⟩
  rw [h2]
  congr 1
  simp [List.append_assoc]

theorem C1_join_replay_order_witness :
    ∃ t, alookup (runOps (step ⟨exCore, exOuts⟩
        (.event 1 (.binary (some (.receiverMessage 7 (.joinChannel "k")))))) []).outs 1 =
      some ([] ++ replayMsgs 7 exChannel.session_description exChannel.ice_candidates ++ t) :=
  C1_join_replay_order exCore exOuts 1 7 "k" ⟨1, [], []⟩ 0 5 exChannel none []
    (by decide) (by decide) (by decide) (by decide) (by decide) (by decide) []

/-- C2 (counter-evidence for the claim): after socket 0 opens `"k"`,
socket 1 joins and then exits, the channel is still alive (socket 0 owns
it) and its bound weak receiver reference is dead — no receiver is live —
yet the broadcast snapshot is empty: the channel is not advertised again,
because `update_open_channel_ids` tests `receiver.is_none()` while
`exit_channel` leaves the slot at `Some(dead weak)`. -/
theorem C2_exit_channel_not_readvertised :
    registryUpgrade (runTrace trOpenJoinExit).core "k" =
      some (0, 5,
        { alloc := 0, channel_id := "k", session_sender_id := 5,
          session_description := none, ice_candidates := ⟨[], false⟩,
          kind := .peerToPeer (some 1) }) ∧
    receiverAlive (runTrace trOpenJoinExit).core.sockets 1 = false ∧
    openChannelIds (runTrace trOpenJoinExit).core = [] := by
  decide

/-- C4 (counter-evidence for the claim): a transport failure on socket 0
(the read loop's `unwrap` panics) terminates the session without running
`Socket::clear`: the socket disappears, but the hub's sender map still
holds its entry, the registry still holds the `"k"` entry (now dead), and
nothing is broadcast to anybody. -/
theorem C4_transport_failure_skips_cleanup :
    (step (runTrace trOpen) (.event 0 .readFailure)).outs = (runTrace trOpen).outs ∧
    (step (runTrace trOpen) (.event 0 .readFailure)).core.senders = [0, 1] ∧
    socksFind (step (runTrace trOpen) (.event 0 .readFailure)).core.sockets 0 = none ∧
    alookup (step (runTrace trOpen) (.event 0 .readFailure)).core.channels "k" = some 0 ∧
    findChannelByAlloc (step (runTrace trOpen) (.event 0 .readFailure)).core.sockets 0 =
      none := by
  decide

/-- C5 (counter-evidence for the claim): after `CloseChannel`, no live
channel named `"k"` exists, but the registry still holds a stale entry,
so a fresh `OpenChannel("k")` from socket 1 is answered with
`Error(ChannelIdIsAlreadyUsed("k"))`. -/
theorem C5_stale_registry_entry_rejects_reopen :
    registryUpgrade (runTrace trOpenClose).core "k" = none ∧
    alookup (runTrace trOpenClose).core.channels "k" = some 0 ∧
    outboxOf (runTrace (trOpenClose ++
        [.event 1 (.binary (some (.senderMessage 9 (.openChannel "k" .peerToPeer))))])) 1 =
      [.openChannelIdsChanged [], .openChannelIdsChanged ["k"], .openChannelIdsChanged [],
       .senderMessage 9 (.error (.channelIdIsAlreadyUsed "k"))] := by
  decide

/-- C6: `Sender{id, OpenChannel{channel, mode}}` checks in order: a used
local sender-session id replies `SessionSenderIdIsAlreadyUsed` with no
state change; else a channel id present in the registry replies
`ChannelIdIsAlreadyUsed(channel)` with no state change; else
`ClientServer` mode changes no state and sends no reply; otherwise the
channel is created, inserted weakly into the registry, stored strongly in
the session's sender map, and a channel-set broadcast is triggered. -/
theorem C6_open_channel_cases (c : MCore) (sid senderId : Nat) (cid : String)
    (mode : MNetworkMode) (sk : MSock) (hsk : socksFind c.sockets sid = some sk) :
    (alookup sk.channel_senders senderId ≠ none →
      hOpenChannel c sid senderId cid mode =
        (c, [(sid, .senderMessage senderId (.error .sessionSenderIdIsAlreadyUsed))])) ∧
    (alookup sk.channel_senders senderId = none →
      alookup c.channels cid ≠ none →
      hOpenChannel c sid senderId cid mode =
        (c, [(sid, .senderMessage senderId (.error (.channelIdIsAlreadyUsed cid)))])) ∧
    (alookup sk.channel_senders senderId = none →
      alookup c.channels cid = none →
      mode = .clientServer →
      hOpenChannel c sid senderId cid mode = (c, [])) ∧
    (alookup sk.channel_senders senderId = none →
      alookup c.channels cid = none →
      mode = .peerToPeer →
      alookup (hOpenChannel c sid senderId cid mode).1.channels cid = some c.nextAlloc ∧
      ownedChannel (hOpenChannel c sid senderId cid mode).1 sid senderId =
        some (freshChannel c senderId cid) ∧
      (hOpenChannel c sid senderId cid mode).2 =
        broadcastEmits (hOpenChannel c sid senderId cid mode).1) := by
  refine ⟨?_, ?_, ?_, ?_⟩
  · intro h
    cases hx : alookup sk.channel_senders senderId with
    | none => exact absurd hx h
    | some ch0 => simp only [hOpenChannel, hsk, hx]
  · intro h1 h2
    cases hx : alookup c.channels cid with
    | none => exact absurd hx h2
    | some a => simp only [hOpenChannel, hsk, h1, hx]
  · intro h1 h2 h3
    subst h3
    simp only [hOpenChannel, hsk, h1, h2]
  · intro h1 h2 h3
    subst h3
    rw [hOpenChannel_success_eq c sid senderId cid sk hsk h1 h2]
    refine ⟨?_, ?_, rfl⟩
    · show alookup (c.channels ++ [(cid, c.nextAlloc)]) cid = some c.nextAlloc
      rw [alookup_append, h2]
      simp [alookup]
    · show ownedChannel (openSuccessCore c sid senderId cid) sid senderId =
        some (freshChannel c senderId cid)
      unfold ownedChannel openSuccessCore
      dsimp only
      rw [socksFind_updateSocks c.sockets sid
        (fun s => { s with channel_senders :=
          s.channel_senders ++ [(senderId, freshChannel c senderId cid)] })
        (fun s => rfl) sid, hsk]
      have hs := socksFind_sid _ _ _ hsk
      simp [Option.map, hs, alookup_append, h1, alookup]

theorem C6_open_channel_witness :
    alookup (hOpenChannel exCore 1 6 "j" .peerToPeer).1.channels "j" = some exCore.nextAlloc ∧
    ownedChannel (hOpenChannel exCore 1 6 "j" .peerToPeer).1 1 6 =
      some (freshChannel exCore 6 "j") ∧
    (hOpenChannel exCore 1 6 "j" .peerToPeer).2 =
      broadcastEmits (hOpenChannel exCore 1 6 "j" .peerToPeer).1 :=
  (C6_open_channel_cases exCore 1 6 "j" .peerToPeer ⟨1, [], []⟩ (by decide)).2.2.2
    (by decide) (by decide) rfl

/-- C7: joining an occupied peer-to-peer channel (a live receiver is
bound) replies `ChannelIsAlreadyOccupied` and changes no state; when no
live receiver is bound (fresh slot or dead weak left by an exit), the
join succeeds — the slot is replaced, the receiver is stored, and the
stored offer/candidates are replayed — and `exit_channel` never touches
any channel's accumulated state. -/
theorem C7_p2p_exclusivity (c : MCore) (sid rid : Nat) (cid : String) (sk : MSock)
    (ownerSid osid : Nat) (ch : MChannel)
    (hsk : socksFind c.sockets sid = some sk)
    (hrid : alookup sk.channel_receivers rid = none)
    (hch : registryUpgrade c cid = some (ownerSid, osid, ch)) :
    (∀ a, ch.kind = .peerToPeer (some a) → receiverAlive c.sockets a = true →
      hJoinChannel c sid rid cid =
        (c, [(sid, .receiverMessage rid (.error (.channelIsAlreadyOccupied cid)))])) ∧
    (∀ slot, ch.kind = .peerToPeer slot → slotOccupied c.sockets slot = false →
      findChannelByAlloc (hJoinChannel c sid rid cid).1.sockets ch.alloc =
        some (ownerSid, osid, { ch with kind := .peerToPeer (some c.nextAlloc) }) ∧
      ownedReceiver (hJoinChannel c sid rid cid).1 sid rid =
        some (freshReceiver c rid ch) ∧
      (hJoinChannel c sid rid cid).2 =
        (replayMsgs rid ch.session_description ch.ice_candidates).map (fun m => (sid, m))
          ++ broadcastEmits (hJoinChannel c sid rid cid).1) ∧
    (∀ sidX ridX sidY senderIdY,
      ownedChannel (hExitChannel c sidX ridX).1 sidY senderIdY =
        ownedChannel c sidY senderIdY) := by
  refine ⟨?_, ?_, ?_⟩
  · intro a hk ha
    have hocc : slotOccupied c.sockets (some a) = true := by
      simp [slotOccupied, ha]
    exact hJoinChannel_occupied_eq c sid rid cid sk ownerSid osid ch (some a)
      hsk hrid hch hk hocc
  · intro slot hk hocc
    have hj := hJoinChannel_success_eq c sid rid cid sk ownerSid osid ch slot
      hsk hrid hch hk hocc
    obtain ⟨hreg, hfind⟩ := registryUpgrade_inv c cid _ hch
    refine ⟨?_, ?_, ?_⟩
    · rw [hj]
      show findChannelByAlloc (joinSuccessCore c sid rid ch).sockets ch.alloc = _
      unfold joinSuccessCore
      dsimp only
      rw [findChannelByAlloc_updateSocks_receivers _ sid
        (fun s => { s with channel_receivers :=
          s.channel_receivers ++ [(rid, freshReceiver c rid ch)] })
        (fun s => rfl) (fun s => rfl) ch.alloc]
      rw [findChannelByAlloc_updateChannelByAlloc c.sockets ch.alloc
        (fun chX => { chX with kind := .peerToPeer (some c.nextAlloc) }) (fun chX => rfl)]
      dsimp only at hfind
      rw [hfind]
      rfl
    · rw [hj]
      show ownedReceiver (joinSuccessCore c sid rid ch) sid rid = _
      unfold ownedReceiver joinSuccessCore
      dsimp only
      rw [socksFind_updateSocks
        (updateChannelByAlloc c.sockets ch.alloc
          (fun chX => { chX with kind := .peerToPeer (some c.nextAlloc) })) sid
        (fun s => { s with channel_receivers :=
          s.channel_receivers ++ [(rid, freshReceiver c rid ch)] })
        (fun s => rfl) sid]
      rw [socksFind_updateChannelByAlloc c.sockets ch.alloc
        (fun chX => { chX with kind := .peerToPeer (some c.nextAlloc) }) sid, hsk]
      have hs := socksFind_sid _ _ _ hsk
      simp [Option.map, hs, alookup_append, hrid, alookup]
    · rw [hj]
  · intro sidX ridX sidY senderIdY
    exact ownedChannel_hExitChannel c sidX ridX sidY senderIdY

theorem C7_p2p_exclusivity_witness :
    (hJoinChannel (joinSuccessCore exCore 1 7 exChannel) 1 8 "k" =
      (joinSuccessCore exCore 1 7 exChannel,
        [(1, .receiverMessage 8 (.error (.channelIsAlreadyOccupied "k")))])) ∧
    (findChannelByAlloc (hJoinChannel exCore 1 7 "k").1.sockets exChannel.alloc =
      some (0, 5, { exChannel with kind := .peerToPeer (some exCore.nextAlloc) }) ∧
     ownedReceiver (hJoinChannel exCore 1 7 "k").1 1 7 =
       some (freshReceiver exCore 7 exChannel) ∧
     (hJoinChannel exCore 1 7 "k").2 =
       (replayMsgs 7 exChannel.session_description exChannel.ice_candidates).map
           (fun m => (1, m))
         ++ broadcastEmits (hJoinChannel exCore 1 7 "k").1) ∧
    ownedChannel (hExitChannel exCore 1 9).1 0 5 = ownedChannel exCore 0 5 :=
  ⟨(C7_p2p_exclusivity (joinSuccessCore exCore 1 7 exChannel) 1 8 "k"
      ⟨1, [], [(7, freshReceiver exCore 7 exChannel)]⟩ 0 5
      { exChannel with kind := .peerToPeer (some 1) }
      (by decide) (by decide) (by decide)).1 1 (by decide) (by decide),
   (C7_p2p_exclusivity exCore 1 7 "k" ⟨1, [], []⟩ 0 5 exChannel
      (by decide) (by decide) (by decide)).2.1 none (by decide) (by decide),
   (C7_p2p_exclusivity exCore 1 7 "k" ⟨1, [], []⟩ 0 5 exChannel
      (by decide) (by decide) (by decide)).2.2 1 9 0 5⟩

/-- C8: for a sender session that owns a channel, `SendOffer` replaces the
stored offer and leaves the ICE accumulator unchanged; a sender
`IceCandidate` appends the candidate in arrival order, resets `all_sent`
to `false` and leaves the offer unchanged; `AllIceCandidatesSent` sets
`all_sent` without touching the candidates or the offer. -/
theorem C8_sender_state_effects (c : MCore) (sid senderId : Nat) (ch : MChannel)
    (h : ownedChannel c sid senderId = some ch) (sdp : String) (cnd : MIceCandidate) :
    ownedChannel (hSendOffer c sid senderId sdp).1 sid senderId =
      some { ch with session_description := some sdp } ∧
    ownedChannel (hSenderIce c sid senderId cnd).1 sid senderId =
      some { ch with ice_candidates := ⟨ch.ice_candidates.candidates ++ [cnd], false⟩ } ∧
    ownedChannel (hSenderAllSent c sid senderId).1 sid senderId =
      some { ch with ice_candidates := ⟨ch.ice_candidates.candidates, true⟩ } := by
  refine ⟨?_, ?_, ?_⟩
  · rw [hSendOffer_core c sid senderId sdp ch h, ownedChannel_updateOwnChannel_self, h]
    rfl
  · rw [hSenderIce_core c sid senderId cnd ch h, ownedChannel_updateOwnChannel_self, h]
    rfl
  · rw [hSenderAllSent_core c sid senderId ch h, ownedChannel_updateOwnChannel_self, h]
    rfl

theorem C8_sender_state_effects_witness :
    ownedChannel (hSendOffer exCore 0 5 "v=1").1 0 5 =
      some { exChannel with session_description := some "v=1" } ∧
    ownedChannel (hSenderIce exCore 0 5 exCand).1 0 5 =
      some { exChannel with
        ice_candidates := ⟨exChannel.ice_candidates.candidates ++ [exCand], false⟩ } ∧
    ownedChannel (hSenderAllSent exCore 0 5).1 0 5 =
      some { exChannel with
        ice_candidates := ⟨exChannel.ice_candidates.candidates, true⟩ } :=
  C8_sender_state_effects exCore 0 5 exChannel (by decide) "v=1" exCand

/-- C10: on no code path does the server emit
`ServerSenderMessage::OpenChannelSuccess` or
`ServerReceiverMessage::JoinChannelSuccess`: every frame ever written to
any connection over any run satisfies `successFree`. -/
theorem C10_no_success_frames (ops : List MOp) (sid : Nat) (m : MServerMsg)
    (hm : m ∈ outboxOf (runTrace ops) sid) : successFree m = true := by
  have hfree : OutsFree (runTrace ops).outs :=
    runOps_OutsFree ops initState (by intro p hp mm hmm; simp [initState] at hp)
  unfold outboxOf at hm
  cases h : alookup (runTrace ops).outs sid with
  | none => rw [h] at hm; simp at hm
  | some box =>
    rw [h] at hm
    obtain ⟨p, hp, hv⟩ := alookup_mem _ _ _ h
    refine hfree p hp m ?_
    rw [hv]
    simpa using hm

theorem C10_no_success_frames_witness :
    MServerMsg.openChannelIdsChanged [] ∈ outboxOf (runTrace trOpen) 0 ∧
    successFree (MServerMsg.openChannelIdsChanged []) = true :=
  ⟨by decide, C10_no_success_frames trOpen 0 (MServerMsg.openChannelIdsChanged []) (by decide)⟩

end SigModel

namespace SigModel

/-- C3 counterexample: socket 1's receiver 7 is bound (the exit will
succeed), yet the `ExitChannel` step emits nothing and leaves every write
history unchanged — no `OpenChannelIdsChanged` broadcast follows the
exit, contrary to the claim. -/
theorem C3_counterexample_exit_no_broadcast :
    ownedReceiver (runTrace trOpenJoin).core 1 7 ≠ none ∧
    (hExitChannel (runTrace trOpenJoin).core 1 7).2 = [] ∧
    (step (runTrace trOpenJoin)
        (.event 1 (.binary (some (.receiverMessage 7 .exitChannel))))).outs
      = (runTrace trOpenJoin).outs := by
  decide

/-- C3 (amended): a successful `OpenChannel`, a successful peer-to-peer
`JoinChannel`, a successful `CloseChannel` and a clean socket teardown
each end by recomputing the snapshot and emitting `OpenChannelIdsChanged`
with that snapshot to every live connection (`broadcastEmits` of the
resulting state); a successful `ExitChannel`, however, emits nothing at
all. -/
theorem C3_broadcast_after_mutations :
    (∀ c sid senderId cid sk, socksFind c.sockets sid = some sk →
      alookup sk.channel_senders senderId = none →
      alookup c.channels cid = none →
      (hOpenChannel c sid senderId cid .peerToPeer).2 =
        broadcastEmits (hOpenChannel c sid senderId cid .peerToPeer).1) ∧
    (∀ c sid rid cid sk ownerSid osid ch slot,
      socksFind c.sockets sid = some sk →
      alookup sk.channel_receivers rid = none →
      registryUpgrade c cid = some (ownerSid, osid, ch) →
      ch.kind = .peerToPeer slot →
      slotOccupied c.sockets slot = false →
      (hJoinChannel c sid rid cid).2 =
        (replayMsgs rid ch.session_description ch.ice_candidates).map (fun m => (sid, m))
          ++ broadcastEmits (hJoinChannel c sid rid cid).1) ∧
    (∀ c sid senderId sk ch, socksFind c.sockets sid = some sk →
      alookup sk.channel_senders senderId = some ch →
      (hCloseChannel c sid senderId).2 = broadcastEmits (hCloseChannel c sid senderId).1) ∧
    (∀ c sid sk, socksFind c.sockets sid = some sk →
      (teardown c sid).2 = broadcastEmits (teardown c sid).1) ∧
    (∀ c sid rid sk r, socksFind c.sockets sid = some sk →
      alookup sk.channel_receivers rid = some r →
      (hExitChannel c sid rid).2 = []) := by
  refine ⟨?_, ?_, ?_, ?_, ?_⟩
  · intro c sid senderId cid sk hsk h1 h2
    rw [hOpenChannel_success_eq c sid senderId cid sk hsk h1 h2]
  · intro c sid rid cid sk ownerSid osid ch slot hsk hrid hch hk hocc
    rw [hJoinChannel_success_eq c sid rid cid sk ownerSid osid ch slot hsk hrid hch hk hocc]
  · intro c sid senderId sk ch hsk hown
    exact hCloseChannel_success_emits c sid senderId sk ch hsk hown
  · intro c sid sk hsk
    exact teardown_emits c sid sk hsk
  · intro c sid rid sk r hsk hr
    exact hExitChannel_success_emits c sid rid sk r hsk hr

theorem C3_broadcast_after_mutations_witness :
    ((hOpenChannel exCore 1 6 "j" .peerToPeer).2 =
      broadcastEmits (hOpenChannel exCore 1 6 "j" .peerToPeer).1) ∧
    ((hJoinChannel exCore 1 7 "k").2 =
      (replayMsgs 7 exChannel.session_description exChannel.ice_candidates).map
          (fun m => (1, m))
        ++ broadcastEmits (hJoinChannel exCore 1 7 "k").1) ∧
    ((hCloseChannel exCore 0 5).2 = broadcastEmits (hCloseChannel exCore 0 5).1) ∧
    ((teardown exCore 0).2 = broadcastEmits (teardown exCore 0).1) ∧
    ((hExitChannel (joinSuccessCore exCore 1 7 exChannel) 1 7).2 = []) :=
  ⟨C3_broadcast_after_mutations.1 exCore 1 6 "j" ⟨1, [], []⟩
      (by decide) (by decide) (by decide),
   C3_broadcast_after_mutations.2.1 exCore 1 7 "k" ⟨1, [], []⟩ 0 5 exChannel none
      (by decide) (by decide) (by decide) (by decide) (by decide),
   C3_broadcast_after_mutations.2.2.1 exCore 0 5 ⟨0, [(5, exChannel)], []⟩ exChannel
      (by decide) (by decide),
   C3_broadcast_after_mutations.2.2.2.1 exCore 0 ⟨0, [(5, exChannel)], []⟩ (by decide),
   C3_broadcast_after_mutations.2.2.2.2 (joinSuccessCore exCore 1 7 exChannel) 1 7
      ⟨1, [], [(7, freshReceiver exCore 7 exChannel)]⟩ (freshReceiver exCore 7 exChannel)
      (by decide) (by decide)⟩

end SigModel

namespace SigWire

/-! ### Primitive codec lemmas, round-trip direction -/

theorem decU8_enc (n : Nat) (h : n < 256) (r : Bytes) :
    decU8 (encU8 n ++ r) = some (n, r) := by
  simp only [encU8, byte, List.cons_append, List.nil_append, decU8]
  congr
  omega

theorem decU16_enc (n : Nat) (h : n < 65536) (r : Bytes) :
    decU16 (encU16 n ++ r) = some (n, r) := by
  simp only [encU16, byte, List.cons_append, List.nil_append, decU16]
  congr 2
  omega

theorem decU32_enc (n : Nat) (h : n < 4294967296) (r : Bytes) :
    decU32 (encU32 n ++ r) = some (n, r) := by
  simp only [encU32, byte, List.cons_append, List.nil_append, decU32]
  congr 2
  omega

theorem decU64_enc (n : Nat) (h : n < 18446744073709551616) (r : Bytes) :
    decU64 (encU64 n ++ r) = some (n, r) := by
  simp only [encU64, byte, List.cons_append, List.nil_append, decU64]
  congr 2
  omega

theorem decTake_enc (l r : Bytes) : decTake l.length (l ++ r) = some (l, r) := by
  induction l with
  | nil => simp [decTake]
  | cons b t ih => simp [decTake, ih]

theorem decBytes_enc (s : Bytes) (h : wfLen s) (r : Bytes) :
    decBytes (encBytes s ++ r) = some (s, r) := by
  unfold decBytes encBytes
  rw [List.append_assoc, decU64_enc s.length h (s ++ r)]
  exact decTake_enc s r

theorem decOpt_enc {α : Type} (f : Bytes → Option (α × Bytes)) (g : α → Bytes)
    (o : Option α) (r : Bytes)
    (hf : ∀ a, o = some a → f (g a ++ r) = some (a, r)) :
    decOpt f (encOpt g o ++ r) = some (o, r) := by
  cases o with
  | none =>
    unfold encOpt decOpt
    rw [decU8_enc 0 (by omega) r]
    simp
  | some a =>
    unfold encOpt decOpt
    rw [List.append_assoc, decU8_enc 1 (by omega) (g a ++ r)]
    simp [hf a rfl]

theorem decListN_enc {α : Type} (f : Bytes → Option (α × Bytes)) (g : α → Bytes)
    (l : List α) (r : Bytes) (hf : ∀ a, a ∈ l → ∀ r', f (g a ++ r') = some (a, r')) :
    decListN f l.length (encListPayload g l ++ r) = some (l, r) := by
  induction l with
  | nil => simp [encListPayload, decListN]
  | cons a t ih =>
    have h1 : f (g a ++ (encListPayload g t ++ r)) = some (a, encListPayload g t ++ r) :=
      hf a (by simp) (encListPayload g t ++ r)
    have h2 : decListN f t.length (encListPayload g t ++ r) = some (t, r) :=
      ih (fun x hx r' => hf x (by simp [hx]) r')
    simp [encListPayload, decListN, List.append_assoc, h1, h2]

theorem decList_enc {α : Type} (f : Bytes → Option (α × Bytes)) (g : α → Bytes)
    (l : List α) (r : Bytes) (hlen : l.length < 18446744073709551616)
    (hf : ∀ a, a ∈ l → ∀ r', f (g a ++ r') = some (a, r')) :
    decList f (encList g l ++ r) = some (l, r) := by
  unfold decList encList
  rw [List.append_assoc, decU64_enc l.length hlen (encListPayload g l ++ r)]
  exact decListN_enc f g l r hf

theorem decIce_enc (c : WIceCandidate) (h : wfIce c) (r : Bytes) :
    decIce (encIce c ++ r) = some (c, r) := by
  obtain ⟨h1, h2, h3⟩ := h
  have e1 : decBytes (encBytes c.candidate
      ++ (encOpt encBytes c.sdp_mid ++ (encOpt encU16 c.sdp_m_line_index ++ r)))
      = some (c.candidate, encOpt encBytes c.sdp_mid ++ (encOpt encU16 c.sdp_m_line_index ++ r)) :=
    decBytes_enc _ h1 _
  have e2 : decOpt decBytes (encOpt encBytes c.sdp_mid ++ (encOpt encU16 c.sdp_m_line_index ++ r))
      = some (c.sdp_mid, encOpt encU16 c.sdp_m_line_index ++ r) := by
    apply decOpt_enc
    intro a ha
    rw [ha] at h2
    simp only [wfOptBytes] at h2
    exact decBytes_enc a h2 _
  have e3 : decOpt decU16 (encOpt encU16 c.sdp_m_line_index ++ r)
      = some (c.sdp_m_line_index, r) := by
    apply decOpt_enc
    intro a ha
    rw [ha] at h3
    simp only [wfOptU16, wfU16] at h3
    exact decU16_enc a h3 _
  simp [encIce, decIce, List.append_assoc, e1, e2, e3]

end SigWire

namespace SigWire

theorem decNetworkMode_enc (m : WNetworkMode) (r : Bytes) :
    decNetworkMode (encNetworkMode m ++ r) = some (m, r) := by
  cases m with
  | peerToPeer =>
    unfold encNetworkMode decNetworkMode
    rw [decU32_enc 0 (by omega) r]
    simp
  | clientServer =>
    unfold encNetworkMode decNetworkMode
    rw [decU32_enc 1 (by omega) r]
    simp

theorem decClientSenderMsg_enc (m : WClientSenderMsg) (h : wfClientSenderMsg m)
    (r : Bytes) : decClientSenderMsg (encClientSenderMsg m ++ r) = some (m, r) := by
  cases m with
  | openChannel cid mode =>
    simp only [wfClientSenderMsg] at h
    unfold encClientSenderMsg decClientSenderMsg
    rw [List.append_assoc, List.append_assoc,
      decU32_enc 0 (by omega) (encBytes cid ++ (encNetworkMode mode ++ r))]
    simp [decBytes_enc cid h, decNetworkMode_enc mode r]
  | closeChannel =>
    unfold encClientSenderMsg decClientSenderMsg
    rw [decU32_enc 1 (by omega) r]
    simp
  | sendOffer sdp =>
    simp only [wfClientSenderMsg] at h
    unfold encClientSenderMsg decClientSenderMsg
    rw [List.append_assoc, decU32_enc 2 (by omega) (encBytes sdp ++ r)]
    simp [decBytes_enc sdp h r]
  | iceCandidate c =>
    simp only [wfClientSenderMsg] at h
    unfold encClientSenderMsg decClientSenderMsg
    rw [List.append_assoc, decU32_enc 3 (by omega) (encIce c ++ r)]
    simp [decIce_enc c h r]
  | allIceCandidatesSent =>
    unfold encClientSenderMsg decClientSenderMsg
    rw [decU32_enc 4 (by omega) r]
    simp
  | sendBinaryData d =>
    simp only [wfClientSenderMsg] at h
    unfold encClientSenderMsg decClientSenderMsg
    rw [List.append_assoc, decU32_enc 5 (by omega) (encBytes d ++ r)]
    simp [decBytes_enc d h r]

theorem decClientReceiverMsg_enc (m : WClientReceiverMsg) (h : wfClientReceiverMsg m)
    (r : Bytes) : decClientReceiverMsg (encClientReceiverMsg m ++ r) = some (m, r) := by
  cases m with
  | joinChannel cid =>
    simp only [wfClientReceiverMsg] at h
    unfold encClientReceiverMsg decClientReceiverMsg
    rw [List.append_assoc, decU32_enc 0 (by omega) (encBytes cid ++ r)]
    simp [decBytes_enc cid h r]
  | exitChannel =>
    unfold encClientReceiverMsg decClientReceiverMsg
    rw [decU32_enc 1 (by omega) r]
    simp
  | sendAnswer sdp =>
    simp only [wfClientReceiverMsg] at h
    unfold encClientReceiverMsg decClientReceiverMsg
    rw [List.append_assoc, decU32_enc 2 (by omega) (encBytes sdp ++ r)]
    simp [decBytes_enc sdp h r]
  | iceCandidate c =>
    simp only [wfClientReceiverMsg] at h
    unfold encClientReceiverMsg decClientReceiverMsg
    rw [List.append_assoc, decU32_enc 3 (by omega) (encIce c ++ r)]
    simp [decIce_enc c h r]
  | allIceCandidatesSent =>
    unfold encClientReceiverMsg decClientReceiverMsg
    rw [decU32_enc 4 (by omega) r]
    simp

theorem decClientMsg_enc (m : WClientMsg) (h : wfClientMsg m) (r : Bytes) :
    decClientMsg (encClientMsg m ++ r) = some (m, r) := by
  cases m with
  | senderMessage i msg =>
    obtain ⟨hi, hm⟩ := h
    unfold encClientMsg decClientMsg
    rw [List.append_assoc, List.append_assoc,
      decU32_enc 0 (by omega) (encU32 i ++ (encClientSenderMsg msg ++ r))]
    simp [decU32_enc i hi, decClientSenderMsg_enc msg hm r]
  | receiverMessage i msg =>
    obtain ⟨hi, hm⟩ := h
    unfold encClientMsg decClientMsg
    rw [List.append_assoc, List.append_assoc,
      decU32_enc 1 (by omega) (encU32 i ++ (encClientReceiverMsg msg ++ r))]
    simp [decU32_enc i hi, decClientReceiverMsg_enc msg hm r]

theorem decServerSenderError_enc (e : WServerSenderError) (h : wfServerSenderError e)
    (r : Bytes) : decServerSenderError (encServerSenderError e ++ r) = some (e, r) := by
  cases e with
  | sessionSenderIdIsAlreadyUsed =>
    unfold encServerSenderError decServerSenderError
    rw [decU32_enc 0 (by omega) r]
    simp
  | sessionSenderIdIsNotExist =>
    unfold encServerSenderError decServerSenderError
    rw [decU32_enc 1 (by omega) r]
    simp
  | channelIdIsAlreadyUsed cid =>
    simp only [wfServerSenderError] at h
    unfold encServerSenderError decServerSenderError
    rw [List.append_assoc, decU32_enc 2 (by omega) (encBytes cid ++ r)]
    simp [decBytes_enc cid h r]

theorem decServerReceiverError_enc (e : WServerReceiverError)
    (h : wfServerReceiverError e) (r : Bytes) :
    decServerReceiverError (encServerReceiverError e ++ r) = some (e, r) := by
  cases e with
  | sessionReceiverIdIsAlreadyUsed =>
    unfold encServerReceiverError decServerReceiverError
    rw [decU32_enc 0 (by omega) r]
    simp
  | sessionReceiverIdIsNotExist =>
    unfold encServerReceiverError decServerReceiverError
    rw [decU32_enc 1 (by omega) r]
    simp
  | channelIsNotExist cid =>
    simp only [wfServerReceiverError] at h
    unfold encServerReceiverError decServerReceiverError
    rw [List.append_assoc, decU32_enc 2 (by omega) (encBytes cid ++ r)]
    simp [decBytes_enc cid h r]
  | channelIsAlreadyOccupied cid =>
    simp only [wfServerReceiverError] at h
    unfold encServerReceiverError decServerReceiverError
    rw [List.append_assoc, decU32_enc 3 (by omega) (encBytes cid ++ r)]
    simp [decBytes_enc cid h r]

theorem decServerSenderMsg_enc (m : WServerSenderMsg) (h : wfServerSenderMsg m)
    (r : Bytes) : decServerSenderMsg (encServerSenderMsg m ++ r) = some (m, r) := by
  cases m with
  | openChannelSuccess =>
    unfold encServerSenderMsg decServerSenderMsg
    rw [decU32_enc 0 (by omega) r]
    simp
  | channelAnswer sdp =>
    simp only [wfServerSenderMsg] at h
    unfold encServerSenderMsg decServerSenderMsg
    rw [List.append_assoc, decU32_enc 1 (by omega) (encBytes sdp ++ r)]
    simp [decBytes_enc sdp h r]
  | iceCandidate c =>
    simp only [wfServerSenderMsg] at h
    unfold encServerSenderMsg decServerSenderMsg
    rw [List.append_assoc, decU32_enc 2 (by omega) (encIce c ++ r)]
    simp [decIce_enc c h r]
  | allIceCandidatesSent =>
    unfold encServerSenderMsg decServerSenderMsg
    rw [decU32_enc 3 (by omega) r]
    simp
  | error e =>
    simp only [wfServerSenderMsg] at h
    unfold encServerSenderMsg decServerSenderMsg
    rw [List.append_assoc, decU32_enc 4 (by omega) (encServerSenderError e ++ r)]
    simp [decServerSenderError_enc e h r]

theorem decServerReceiverMsg_enc (m : WServerReceiverMsg) (h : wfServerReceiverMsg m)
    (r : Bytes) : decServerReceiverMsg (encServerReceiverMsg m ++ r) = some (m, r) := by
  cases m with
  | joinChannelSuccess =>
    unfold encServerReceiverMsg decServerReceiverMsg
    rw [decU32_enc 0 (by omega) r]
    simp
  | channelOffer sdp =>
    simp only [wfServerReceiverMsg] at h
    unfold encServerReceiverMsg decServerReceiverMsg
    rw [List.append_assoc, decU32_enc 1 (by omega) (encBytes sdp ++ r)]
    simp [decBytes_enc sdp h r]
  | iceCandidate c =>
    simp only [wfServerReceiverMsg] at h
    unfold encServerReceiverMsg decServerReceiverMsg
    rw [List.append_assoc, decU32_enc 2 (by omega) (encIce c ++ r)]
    simp [decIce_enc c h r]
  | allIceCandidatesSent =>
    unfold encServerReceiverMsg decServerReceiverMsg
    rw [decU32_enc 3 (by omega) r]
    simp
  | binaryData d =>
    simp only [wfServerReceiverMsg] at h
    unfold encServerReceiverMsg decServerReceiverMsg
    rw [List.append_assoc, decU32_enc 4 (by omega) (encBytes d ++ r)]
    simp [decBytes_enc d h r]
  | error e =>
    simp only [wfServerReceiverMsg] at h
    unfold encServerReceiverMsg decServerReceiverMsg
    rw [List.append_assoc, decU32_enc 5 (by omega) (encServerReceiverError e ++ r)]
    simp [decServerReceiverError_enc e h r]

theorem decServerMsg_enc (m : WServerMsg) (h : wfServerMsg m) (r : Bytes) :
    decServerMsg (encServerMsg m ++ r) = some (m, r) := by
  cases m with
  | openChannelIdsChanged ids =>
    obtain ⟨hlen, hins⟩ := h
    unfold encServerMsg decServerMsg
    rw [List.append_assoc, decU32_enc 0 (by omega) (encList encBytes ids ++ r)]
    have hl : decList decBytes (encList encBytes ids ++ r) = some (ids, r) :=
      decList_enc decBytes encBytes ids r hlen
        (fun a ha r' => decBytes_enc a (hins a ha) r')
    simp [hl]
  | senderMessage i msg =>
    obtain ⟨hi, hm⟩ := h
    unfold encServerMsg decServerMsg
    rw [List.append_assoc, List.append_assoc,
      decU32_enc 1 (by omega) (encU32 i ++ (encServerSenderMsg msg ++ r))]
    simp [decU32_enc i hi, decServerSenderMsg_enc msg hm r]
  | receiverMessage i msg =>
    obtain ⟨hi, hm⟩ := h
    unfold encServerMsg decServerMsg
    rw [List.append_assoc, List.append_assoc,
      decU32_enc 2 (by omega) (encU32 i ++ (encServerReceiverMsg msg ++ r))]
    simp [decU32_enc i hi, decServerReceiverMsg_enc msg hm r]

end SigWire

namespace SigWire

/-! ### Primitive codec lemmas, soundness direction -/

theorem byte_val (b : Byte) : byte b.val = b := by
  unfold byte
  apply Fin.ext
  simp [Nat.mod_eq_of_lt b.isLt]

theorem decU8_sound (bs : Bytes) (n : Nat) (r : Bytes) (h : decU8 bs = some (n, r)) :
    bs = encU8 n ++ r := by
  cases bs with
  | nil => simp [decU8] at h
  | cons b t =>
    simp only [decU8, Option.some_inj, Prod.mk.injEq] at h
    obtain ⟨hn, hr⟩ := h
    subst hn
    subst hr
    simp [encU8, byte_val]

theorem decU16_sound (bs : Bytes) (n : Nat) (r : Bytes) (h : decU16 bs = some (n, r)) :
    bs = encU16 n ++ r := by
  match bs with
  | [] => simp [decU16] at h
  | [b0] => simp [decU16] at h
  | b0 :: b1 :: t =>
    simp only [decU16, Option.some_inj, Prod.mk.injEq] at h
    obtain ⟨hn, hr⟩ := h
    subst hn
    subst hr
    have hb0 := b0.isLt
    have hb1 := b1.isLt
    simp only [encU16, List.cons_append, List.nil_append, List.cons.injEq]
    refine ⟨?_, ?_, trivial⟩
    · apply Fin.ext
      simp only [byte]
      omega
    · apply Fin.ext
      simp only [byte]
      omega

theorem decU32_sound (bs : Bytes) (n : Nat) (r : Bytes) (h : decU32 bs = some (n, r)) :
    bs = encU32 n ++ r := by
  match bs with
  | [] => simp [decU32] at h
  | [b0] => simp [decU32] at h
  | [b0, b1] => simp [decU32] at h
  | [b0, b1, b2] => simp [decU32] at h
  | b0 :: b1 :: b2 :: b3 :: t =>
    simp only [decU32, Option.some_inj, Prod.mk.injEq] at h
    obtain ⟨hn, hr⟩ := h
    subst hn
    subst hr
    have hb0 := b0.isLt
    have hb1 := b1.isLt
    have hb2 := b2.isLt
    have hb3 := b3.isLt
    simp only [encU32, List.cons_append, List.nil_append, List.cons.injEq]
    refine ⟨?_, ?_, ?_, ?_, trivial⟩ <;>
      · apply Fin.ext
        simp only [byte]
        omega

theorem decU64_sound (bs : Bytes) (n : Nat) (r : Bytes) (h : decU64 bs = some (n, r)) :
    bs = encU64 n ++ r := by
  match bs with
  | [] => simp [decU64] at h
  | [b0] => simp [decU64] at h
  | [b0, b1] => simp [decU64] at h
  | [b0, b1, b2] => simp [decU64] at h
  | [b0, b1, b2, b3] => simp [decU64] at h
  | [b0, b1, b2, b3, b4] => simp [decU64] at h
  | [b0, b1, b2, b3, b4, b5] => simp [decU64] at h
  | [b0, b1, b2, b3, b4, b5, b6] => simp [decU64] at h
  | b0 :: b1 :: b2 :: b3 :: b4 :: b5 :: b6 :: b7 :: t =>
    simp only [decU64, Option.some_inj, Prod.mk.injEq] at h
    obtain ⟨hn, hr⟩ := h
    subst hn
    subst hr
    have hb0 := b0.isLt
    have hb1 := b1.isLt
    have hb2 := b2.isLt
    have hb3 := b3.isLt
    have hb4 := b4.isLt
    have hb5 := b5.isLt
    have hb6 := b6.isLt
    have hb7 := b7.isLt
    simp only [encU64, List.cons_append, List.nil_append, List.cons.injEq]
    refine ⟨?_, ?_, ?_, ?_, ?_, ?_, ?_, ?_, trivial⟩ <;>
      · apply Fin.ext
        simp only [byte]
        omega

theorem decTake_sound (n : Nat) (bs xs r : Bytes) (h : decTake n bs = some (xs, r)) :
    bs = xs ++ r ∧ xs.length = n := by
  induction n generalizing bs xs r with
  | zero =>
    simp only [decTake, Option.some_inj, Prod.mk.injEq] at h
    obtain ⟨h1, h2⟩ := h
    subst h1
    subst h2
    simp
  | succ k ih =>
    cases bs with
    | nil => simp [decTake] at h
    | cons b t =>
      simp only [decTake] at h
      cases hd : decTake k t with
      | none => rw [hd] at h; simp at h
      | some p =>
        rw [hd] at h
        simp only [Option.map_some', Option.some_inj, Prod.mk.injEq] at h
        obtain ⟨h1, h2⟩ := h
        obtain ⟨ht, hl⟩ := ih t p.1 p.2 (by rw [hd])
        subst h2
        rw [← h1]
        simp [ht, hl]

theorem decBytes_sound (bs xs r : Bytes) (h : decBytes bs = some (xs, r)) :
    bs = encBytes xs ++ r := by
  unfold decBytes at h
  cases hd : decU64 bs with
  | none => rw [hd] at h; simp at h
  | some p =>
    rw [hd] at h
    have hb := decU64_sound bs p.1 p.2 (by rw [hd])
    obtain ⟨ht, hxl⟩ := decTake_sound p.1 p.2 xs r h
    rw [hb, ht, ← hxl]
    simp [encBytes, List.append_assoc]

theorem decOpt_sound {α : Type} (f : Bytes → Option (α × Bytes)) (g : α → Bytes)
    (hfg : ∀ bs a r, f bs = some (a, r) → bs = g a ++ r) (bs : Bytes) (o : Option α)
    (r : Bytes) (h : decOpt f bs = some (o, r)) : bs = encOpt g o ++ r := by
  unfold decOpt at h
  cases hd : decU8 bs with
  | none => rw [hd] at h; simp at h
  | some p =>
    rw [hd] at h
    have hb := decU8_sound bs p.1 p.2 (by rw [hd])
    have h' : (if p.1 = 0 then some (none, p.2)
        else if p.1 = 1 then Option.map (fun q => (some q.1, q.2)) (f p.2)
        else none) = some (o, r) := h
    clear h
    by_cases h0 : p.1 = 0
    · rw [if_pos h0] at h'
      simp only [Option.some_inj, Prod.mk.injEq] at h'
      obtain ⟨ho, hr⟩ := h'
      subst ho
      subst hr
      rw [hb, h0]
      rfl
    · rw [if_neg h0] at h'
      by_cases h1 : p.1 = 1
      · rw [if_pos h1] at h'
        cases hf : f p.2 with
        | none => rw [hf] at h'; simp at h'
        | some q =>
          rw [hf] at h'
          simp only [Option.map_some', Option.some_inj, Prod.mk.injEq] at h'
          obtain ⟨ho, hr⟩ := h'
          have hq := hfg p.2 q.1 q.2 (by rw [hf])
          subst hr
          rw [← ho, hb, h1, hq]
          simp [encOpt, List.append_assoc]
      · rw [if_neg h1] at h'
        simp at h'

theorem decListN_sound {α : Type} (f : Bytes → Option (α × Bytes)) (g : α → Bytes)
    (hfg : ∀ bs a r, f bs = some (a, r) → bs = g a ++ r) (n : Nat) (bs : Bytes)
    (l : List α) (r : Bytes) (h : decListN f n bs = some (l, r)) :
    bs = encListPayload g l ++ r ∧ l.length = n := by
  induction n generalizing bs l r with
  | zero =>
    simp only [decListN, Option.some_inj, Prod.mk.injEq] at h
    obtain ⟨h1, h2⟩ := h
    subst h1
    subst h2
    simp [encListPayload]
  | succ k ih =>
    simp only [decListN] at h
    split at h
    · simp at h
    · rename_i a r1 hf
      split at h
      · simp at h
      · rename_i t r2 hdn
        simp only [Option.some_inj, Prod.mk.injEq] at h
        obtain ⟨h1, h2⟩ := h
        have hb := hfg bs a r1 hf
        obtain ⟨ht, hl⟩ := ih r1 t r2 hdn
        subst h2
        rw [← h1]
        constructor
        · rw [hb, ht]
          simp [encListPayload, List.append_assoc]
        · simp [hl]

theorem decList_sound {α : Type} (f : Bytes → Option (α × Bytes)) (g : α → Bytes)
    (hfg : ∀ bs a r, f bs = some (a, r) → bs = g a ++ r) (bs : Bytes) (l : List α)
    (r : Bytes) (h : decList f bs = some (l, r)) : bs = encList g l ++ r := by
  unfold decList at h
  cases hd : decU64 bs with
  | none => rw [hd] at h; simp at h
  | some p =>
    rw [hd] at h
    have hb := decU64_sound bs p.1 p.2 (by rw [hd])
    obtain ⟨ht, hl⟩ := decListN_sound f g hfg p.1 p.2 l r h
    rw [hb, ht, ← hl]
    simp [encList, List.append_assoc]

theorem decIce_sound (bs : Bytes) (c : WIceCandidate) (r : Bytes)
    (h : decIce bs = some (c, r)) : bs = encIce c ++ r := by
  unfold decIce at h
  split at h
  · simp at h
  · rename_i cand r1 h1
    split at h
    · simp at h
    · rename_i mid r2 h2
      split at h
      · simp at h
      · rename_i idx r3 h3
        simp only [Option.some_inj, Prod.mk.injEq] at h
        obtain ⟨hc, hr⟩ := h
        have e1 := decBytes_sound bs cand r1 h1
        have e2 := decOpt_sound decBytes encBytes decBytes_sound r1 mid r2 h2
        have e3 := decOpt_sound decU16 encU16
          (fun bs' a r' hh => decU16_sound bs' a r' hh) r2 idx r3 h3
        subst hr
        rw [← hc, e1, e2, e3]
        simp [encIce, List.append_assoc]

end SigWire

namespace SigWire

theorem map_payload_sound {α β : Type} (dec : Bytes → Option (α × Bytes)) (enc : α → Bytes)
    (hs : ∀ bs a r, dec bs = some (a, r) → bs = enc a ++ r)
    (mk : α → β) (bs : Bytes) (m : β) (r : Bytes)
    (h : (dec bs).map (fun p => (mk p.1, p.2)) = some (m, r)) :
    ∃ a, m = mk a ∧ bs = enc a ++ r := by
  cases hd : dec bs with
  | none => rw [hd] at h; simp at h
  | some q =>
    rw [hd] at h
    simp only [Option.map_some', Option.some_inj, Prod.mk.injEq] at h
    obtain ⟨hm, hr⟩ := h
    subst hr
    exact ⟨q.1, hm.symm, hs bs q.1 q.2 (by rw [hd])⟩

theorem decNetworkMode_sound (bs : Bytes) (m : WNetworkMode) (r : Bytes)
    (h : decNetworkMode bs = some (m, r)) : bs = encNetworkMode m ++ r := by
  unfold decNetworkMode at h
  split at h
  · simp at h
  · rename_i tag r0 hd
    have hb := decU32_sound bs tag r0 hd
    split at h
    · rename_i h0
      simp only [Option.some_inj, Prod.mk.injEq] at h
      obtain ⟨hm, hr⟩ := h
      subst hm
      subst hr
      rw [hb, h0]
      rfl
    · split at h
      · rename_i h1
        simp only [Option.some_inj, Prod.mk.injEq] at h
        obtain ⟨hm, hr⟩ := h
        subst hm
        subst hr
        rw [hb, h1]
        rfl
      · simp at h

theorem decClientSenderMsg_sound (bs : Bytes) (m : WClientSenderMsg) (r : Bytes)
    (h : decClientSenderMsg bs = some (m, r)) : bs = encClientSenderMsg m ++ r := by
  unfold decClientSenderMsg at h
  split at h
  · simp at h
  · rename_i tag r0 hd
    have hb := decU32_sound bs tag r0 hd
    split at h
    · rename_i h0
      split at h
      · simp at h
      · rename_i cid r1 hcid
        split at h
        · simp at h
        · rename_i mode r2 hmode
          simp only [Option.some_inj, Prod.mk.injEq] at h
          obtain ⟨hm, hr⟩ := h
          subst hr
          rw [← hm, hb, h0, decBytes_sound r0 cid r1 hcid,
            decNetworkMode_sound r1 mode r2 hmode]
          simp [encClientSenderMsg, List.append_assoc]
    · split at h
      · rename_i h1
        simp only [Option.some_inj, Prod.mk.injEq] at h
        obtain ⟨hm, hr⟩ := h
        subst hr
        rw [← hm, hb, h1]
        rfl
      · split at h
        · rename_i h2
          obtain ⟨a, hma, hba⟩ := map_payload_sound decBytes encBytes decBytes_sound
            WClientSenderMsg.sendOffer r0 m r h
          subst hma
          rw [hb, h2, hba]
          simp [encClientSenderMsg, List.append_assoc]
        · split at h
          · rename_i h3
            obtain ⟨a, hma, hba⟩ := map_payload_sound decIce encIce decIce_sound
              WClientSenderMsg.iceCandidate r0 m r h
            subst hma
            rw [hb, h3, hba]
            simp [encClientSenderMsg, List.append_assoc]
          · split at h
            · rename_i h4
              simp only [Option.some_inj, Prod.mk.injEq] at h
              obtain ⟨hm, hr⟩ := h
              subst hr
              rw [← hm, hb, h4]
              rfl
            · split at h
              · rename_i h5
                obtain ⟨a, hma, hba⟩ := map_payload_sound decBytes encBytes decBytes_sound
                  WClientSenderMsg.sendBinaryData r0 m r h
                subst hma
                rw [hb, h5, hba]
                simp [encClientSenderMsg, List.append_assoc]
              · simp at h

theorem decClientReceiverMsg_sound (bs : Bytes) (m : WClientReceiverMsg) (r : Bytes)
    (h : decClientReceiverMsg bs = some (m, r)) : bs = encClientReceiverMsg m ++ r := by
  unfold decClientReceiverMsg at h
  split at h
  · simp at h
  · rename_i tag r0 hd
    have hb := decU32_sound bs tag r0 hd
    split at h
    · rename_i h0
      obtain ⟨a, hma, hba⟩ := map_payload_sound decBytes encBytes decBytes_sound
        WClientReceiverMsg.joinChannel r0 m r h
      subst hma
      rw [hb, h0, hba]
      simp [encClientReceiverMsg, List.append_assoc]
    · split at h
      · rename_i h1
        simp only [Option.some_inj, Prod.mk.injEq] at h
        obtain ⟨hm, hr⟩ := h
        subst hr
        rw [← hm, hb, h1]
        rfl
      · split at h
        · rename_i h2
          obtain ⟨a, hma, hba⟩ := map_payload_sound decBytes encBytes decBytes_sound
            WClientReceiverMsg.sendAnswer r0 m r h
          subst hma
          rw [hb, h2, hba]
          simp [encClientReceiverMsg, List.append_assoc]
        · split at h
          · rename_i h3
            obtain ⟨a, hma, hba⟩ := map_payload_sound decIce encIce decIce_sound
              WClientReceiverMsg.iceCandidate r0 m r h
            subst hma
            rw [hb, h3, hba]
            simp [encClientReceiverMsg, List.append_assoc]
          · split at h
            · rename_i h4
              simp only [Option.some_inj, Prod.mk.injEq] at h
              obtain ⟨hm, hr⟩ := h
              subst hr
              rw [← hm, hb, h4]
              rfl
            · simp at h

theorem decClientMsg_sound (bs : Bytes) (m : WClientMsg) (r : Bytes)
    (h : decClientMsg bs = some (m, r)) : bs = encClientMsg m ++ r := by
  unfold decClientMsg at h
  split at h
  · simp at h
  · rename_i tag r0 hd
    have hb := decU32_sound bs tag r0 hd
    split at h
    · rename_i h0
      split at h
      · simp at h
      · rename_i i r1 hdi
        split at h
        · simp at h
        · rename_i msg r2 hdm
          simp only [Option.some_inj, Prod.mk.injEq] at h
          obtain ⟨hm, hr⟩ := h
          subst hr
          rw [← hm, hb, h0, decU32_sound r0 i r1 hdi,
            decClientSenderMsg_sound r1 msg r2 hdm]
          simp [encClientMsg, List.append_assoc]
    · split at h
      · rename_i h1
        split at h
        · simp at h
        · rename_i i r1 hdi
          split at h
          · simp at h
          · rename_i msg r2 hdm
            simp only [Option.some_inj, Prod.mk.injEq] at h
            obtain ⟨hm, hr⟩ := h
            subst hr
            rw [← hm, hb, h1, decU32_sound r0 i r1 hdi,
              decClientReceiverMsg_sound r1 msg r2 hdm]
            simp [encClientMsg, List.append_assoc]
      · simp at h

end SigWire

namespace SigWire

theorem decServerSenderError_sound (bs : Bytes) (e : WServerSenderError) (r : Bytes)
    (h : decServerSenderError bs = some (e, r)) : bs = encServerSenderError e ++ r := by
  unfold decServerSenderError at h
  split at h
  · simp at h
  · rename_i tag r0 hd
    have hb := decU32_sound bs tag r0 hd
    split at h
    · rename_i h0
      simp only [Option.some_inj, Prod.mk.injEq] at h
      obtain ⟨hm, hr⟩ := h
      subst hr
      rw [← hm, hb, h0]
      rfl
    · split at h
      · rename_i h1
        simp only [Option.some_inj, Prod.mk.injEq] at h
        obtain ⟨hm, hr⟩ := h
        subst hr
        rw [← hm, hb, h1]
        rfl
      · split at h
        · rename_i h2
          obtain ⟨a, hma, hba⟩ := map_payload_sound decBytes encBytes decBytes_sound
            WServerSenderError.channelIdIsAlreadyUsed r0 e r h
          subst hma
          rw [hb, h2, hba]
          simp [encServerSenderError, List.append_assoc]
        · simp at h

theorem decServerReceiverError_sound (bs : Bytes) (e : WServerReceiverError) (r : Bytes)
    (h : decServerReceiverError bs = some (e, r)) :
    bs = encServerReceiverError e ++ r := by
  unfold decServerReceiverError at h
  split at h
  · simp at h
  · rename_i tag r0 hd
    have hb := decU32_sound bs tag r0 hd
    split at h
    · rename_i h0
      simp only [Option.some_inj, Prod.mk.injEq] at h
      obtain ⟨hm, hr⟩ := h
      subst hr
      rw [← hm, hb, h0]
      rfl
    · split at h
      · rename_i h1
        simp only [Option.some_inj, Prod.mk.injEq] at h
        obtain ⟨hm, hr⟩ := h
        subst hr
        rw [← hm, hb, h1]
        rfl
      · split at h
        · rename_i h2
          obtain ⟨a, hma, hba⟩ := map_payload_sound decBytes encBytes decBytes_sound
            WServerReceiverError.channelIsNotExist r0 e r h
          subst hma
          rw [hb, h2, hba]
          simp [encServerReceiverError, List.append_assoc]
        · split at h
          · rename_i h3
            obtain ⟨a, hma, hba⟩ := map_payload_sound decBytes encBytes decBytes_sound
              WServerReceiverError.channelIsAlreadyOccupied r0 e r h
            subst hma
            rw [hb, h3, hba]
            simp [encServerReceiverError, List.append_assoc]
          · simp at h

theorem decServerSenderMsg_sound (bs : Bytes) (m : WServerSenderMsg) (r : Bytes)
    (h : decServerSenderMsg bs = some (m, r)) : bs = encServerSenderMsg m ++ r := by
  unfold decServerSenderMsg at h
  split at h
  · simp at h
  · rename_i tag r0 hd
    have hb := decU32_sound bs tag r0 hd
    split at h
    · rename_i h0
      simp only [Option.some_inj, Prod.mk.injEq] at h
      obtain ⟨hm, hr⟩ := h
      subst hr
      rw [← hm, hb, h0]
      rfl
    · split at h
      · rename_i h1
        obtain ⟨a, hma, hba⟩ := map_payload_sound decBytes encBytes decBytes_sound
          WServerSenderMsg.channelAnswer r0 m r h
        subst hma
        rw [hb, h1, hba]
        simp [encServerSenderMsg, List.append_assoc]
      · split at h
        · rename_i h2
          obtain ⟨a, hma, hba⟩ := map_payload_sound decIce encIce decIce_sound
            WServerSenderMsg.iceCandidate r0 m r h
          subst hma
          rw [hb, h2, hba]
          simp [encServerSenderMsg, List.append_assoc]
        · split at h
          · rename_i h3
            simp only [Option.some_inj, Prod.mk.injEq] at h
            obtain ⟨hm, hr⟩ := h
            subst hr
            rw [← hm, hb, h3]
            rfl
          · split at h
            · rename_i h4
              obtain ⟨a, hma, hba⟩ := map_payload_sound decServerSenderError
                encServerSenderError decServerSenderError_sound
                WServerSenderMsg.error r0 m r h
              subst hma
              rw [hb, h4, hba]
              simp [encServerSenderMsg, List.append_assoc]
            · simp at h

theorem decServerReceiverMsg_sound (bs : Bytes) (m : WServerReceiverMsg) (r : Bytes)
    (h : decServerReceiverMsg bs = some (m, r)) : bs = encServerReceiverMsg m ++ r := by
  unfold decServerReceiverMsg at h
  split at h
  · simp at h
  · rename_i tag r0 hd
    have hb := decU32_sound bs tag r0 hd
    split at h
    · rename_i h0
      simp only [Option.some_inj, Prod.mk.injEq] at h
      obtain ⟨hm, hr⟩ := h
      subst hr
      rw [← hm, hb, h0]
      rfl
    · split at h
      · rename_i h1
        obtain ⟨a, hma, hba⟩ := map_payload_sound decBytes encBytes decBytes_sound
          WServerReceiverMsg.channelOffer r0 m r h
        subst hma
        rw [hb, h1, hba]
        simp [encServerReceiverMsg, List.append_assoc]
      · split at h
        · rename_i h2
          obtain ⟨a, hma, hba⟩ := map_payload_sound decIce encIce decIce_sound
            WServerReceiverMsg.iceCandidate r0 m r h
          subst hma
          rw [hb, h2, hba]
          simp [encServerReceiverMsg, List.append_assoc]
        · split at h
          · rename_i h3
            simp only [Option.some_inj, Prod.mk.injEq] at h
            obtain ⟨hm, hr⟩ := h
            subst hr
            rw [← hm, hb, h3]
            rfl
          · split at h
            · rename_i h4
              obtain ⟨a, hma, hba⟩ := map_payload_sound decBytes encBytes decBytes_sound
                WServerReceiverMsg.binaryData r0 m r h
              subst hma
              rw [hb, h4, hba]
              simp [encServerReceiverMsg, List.append_assoc]
            · split at h
              · rename_i h5
                obtain ⟨a, hma, hba⟩ := map_payload_sound decServerReceiverError
                  encServerReceiverError decServerReceiverError_sound
                  WServerReceiverMsg.error r0 m r h
                subst hma
                rw [hb, h5, hba]
                simp [encServerReceiverMsg, List.append_assoc]
              · simp at h

theorem decServerMsg_sound (bs : Bytes) (m : WServerMsg) (r : Bytes)
    (h : decServerMsg bs = some (m, r)) : bs = encServerMsg m ++ r := by
  unfold decServerMsg at h
  split at h
  · simp at h
  · rename_i tag r0 hd
    have hb := decU32_sound bs tag r0 hd
    split at h
    · rename_i h0
      obtain ⟨a, hma, hba⟩ := map_payload_sound (decList decBytes) (encList encBytes)
        (decList_sound decBytes encBytes decBytes_sound)
        WServerMsg.openChannelIdsChanged r0 m r h
      subst hma
      rw [hb, h0, hba]
      simp [encServerMsg, List.append_assoc]
    · split at h
      · rename_i h1
        split at h
        · simp at h
        · rename_i i r1 hdi
          split at h
          · simp at h
          · rename_i msg r2 hdm
            simp only [Option.some_inj, Prod.mk.injEq] at h
            obtain ⟨hm, hr⟩ := h
            subst hr
            rw [← hm, hb, h1, decU32_sound r0 i r1 hdi,
              decServerSenderMsg_sound r1 msg r2 hdm]
            simp [encServerMsg, List.append_assoc]
      · split at h
        · rename_i h2
          split at h
          · simp at h
          · rename_i i r1 hdi
            split at h
            · simp at h
            · rename_i msg r2 hdm
              simp only [Option.some_inj, Prod.mk.injEq] at h
              obtain ⟨hm, hr⟩ := h
              subst hr
              rw [← hm, hb, h2, decU32_sound r0 i r1 hdi,
                decServerReceiverMsg_sound r1 msg r2 hdm]
              simp [encServerMsg, List.append_assoc]
        · simp at h

end SigWire

namespace SigWire

/-- C9: the wire codec round-trips — for every well-formed
`ClientMessage` / `ServerMessage` value, decoding the serialized bytes
yields exactly that message (the layout being little-endian, enums tagged
by a `u32` in declaration order, strings and vectors prefixed by a `u64`
length, `Option` a one-byte tag) — and it is sound: whenever decoding a
frame yields a message, the frame is precisely that message's encoding,
so a byte sequence that is not the encoding of any message decodes to an
error rather than a message. -/
theorem C9_codec_roundtrip :
    (∀ m : WClientMsg, wfClientMsg m →
      deserializeClientMsg (serializeClientMsg m) = .ok m) ∧
    (∀ m : WServerMsg, wfServerMsg m →
      deserializeServerMsg (serializeServerMsg m) = .ok m) ∧
    (∀ bs m, deserializeClientMsg bs = .ok m → bs = serializeClientMsg m) ∧
    (∀ bs m, deserializeServerMsg bs = .ok m → bs = serializeServerMsg m) := by
  refine ⟨?_, ?_, ?_, ?_⟩
  · intro m h
    unfold deserializeClientMsg serializeClientMsg
    have he := decClientMsg_enc m h []
    rw [List.append_nil] at he
    rw [he]
  · intro m h
    unfold deserializeServerMsg serializeServerMsg
    have he := decServerMsg_enc m h []
    rw [List.append_nil] at he
    rw [he]
  · intro bs m h
    unfold deserializeClientMsg at h
    cases hd : decClientMsg bs with
    | none =>
      rw [hd] at h
      exact Except.noConfusion h
    | some p =>
      rw [hd] at h
      obtain ⟨m', rest⟩ := p
      cases rest with
      | nil =>
        have h' : (Except.ok m' : Except Unit WClientMsg) = Except.ok m := h
        have hm := Except.ok.inj h'
        subst hm
        have hs := decClientMsg_sound bs m' [] (by rw [hd])
        rw [hs]
        simp [serializeClientMsg]
      | cons b t =>
        exact Except.noConfusion h
  · intro bs m h
    unfold deserializeServerMsg at h
    cases hd : decServerMsg bs with
    | none =>
      rw [hd] at h
      exact Except.noConfusion h
    | some p =>
      rw [hd] at h
      obtain ⟨m', rest⟩ := p
      cases rest with
      | nil =>
        have h' : (Except.ok m' : Except Unit WServerMsg) = Except.ok m := h
        have hm := Except.ok.inj h'
        subst hm
        have hs := decServerMsg_sound bs m' [] (by rw [hd])
        rw [hs]
        simp [serializeServerMsg]
      | cons b t =>
        exact Except.noConfusion h

theorem C9_codec_roundtrip_witness :
    deserializeClientMsg (serializeClientMsg
        (.senderMessage 42 (.openChannel [byte 107] .peerToPeer))) =
      .ok (.senderMessage 42 (.openChannel [byte 107] .peerToPeer)) ∧
    deserializeServerMsg (serializeServerMsg (.openChannelIdsChanged [[byte 107]])) =
      .ok (.openChannelIdsChanged [[byte 107]]) := by
  constructor
  · refine C9_codec_roundtrip.1 _ ⟨?_, ?_⟩
    · show (42 : Nat) < 4294967296
      omega
    · show ([byte 107] : Bytes).length < 18446744073709551616
      simp
  · refine C9_codec_roundtrip.2.1 _ ⟨?_, ?_⟩
    · show ([[byte 107]] : List Bytes).length < 18446744073709551616
      simp
    · intro s hs
      simp only [List.mem_singleton] at hs
      subst hs
      show ([byte 107] : Bytes).length < 18446744073709551616
      simp

end SigWire
